import Mathlib

/-!
Verification development for the drain3 Rust port (`src/`): a shallow
embedding of the log template miner (cluster.rs, drain.rs,
template_miner.rs) in Lean 4, together with theorems settling the
specification claims.

Modelling conventions:
* Rust `HashMap` becomes an association list (`alistLookup` / `alistUpdate`);
  only lookup/insert/update semantics are used by the code under study.
* Rust `f64` similarities become `ℚ`: every similarity computed by the code
  is a ratio of small naturals and `-1.0`, so ordering and equality agree.
* The root node of the prefix tree is keyed in the source by the decimal
  string of the token count; the map `n ↦ toString n` is injective, so we key
  the first layer by the count itself.
* `usize`/`u64` counters become `Nat`.
-/

set_option autoImplicit false

namespace Drain3

/-- `UpdateType` from cluster.rs. -/
inductive UpdateType where
  | None
  | Created
  | Updated
deriving DecidableEq, Repr

/-- `LogCluster` from cluster.rs (drain.rs calls the token field
`log_template_tokens`; cluster.rs, which defines the struct, calls it
`tokens`). -/
structure LogCluster where
  tokens : List String
  cluster_id : Nat
  size : Nat
deriving DecidableEq, Repr

/-- `LogCluster::new`. -/
def LogCluster.new (tokens : List String) (cluster_id : Nat) : LogCluster :=
  { tokens := tokens, cluster_id := cluster_id, size := 1 }

/-- Association list lookup, the model of `HashMap::get`. -/
def alistLookup {κ α : Type} [DecidableEq κ] : List (κ × α) → κ → Option α
  | [], _ => none
  | (k, v) :: rest, key => if k = key then some v else alistLookup rest key

/-- Association list insert-or-replace, the model of `HashMap::insert` /
`entry(..).or_insert(..)` followed by mutation. -/
def alistUpdate {κ α : Type} [DecidableEq κ] : List (κ × α) → κ → α → List (κ × α)
  | [], key, v => [(key, v)]
  | (k, w) :: rest, key, v =>
      if k = key then (k, v) :: rest else (k, w) :: alistUpdate rest key v

@[simp] theorem alistLookup_nil {κ α : Type} [DecidableEq κ] (key : κ) :
    alistLookup ([] : List (κ × α)) key = none := rfl

@[simp] theorem alistLookup_cons {κ α : Type} [DecidableEq κ] (k : κ) (v : α)
    (rest : List (κ × α)) (key : κ) :
    alistLookup ((k, v) :: rest) key = if k = key then some v else alistLookup rest key := rfl

theorem alistLookup_update_self {κ α : Type} [DecidableEq κ]
    (l : List (κ × α)) (key : κ) (v : α) :
    alistLookup (alistUpdate l key v) key = some v := by
  induction l with
  | nil => simp [alistUpdate]
  | cons hd tl ih =>
      obtain ⟨k, w⟩ := hd
      by_cases hk : k = key
      · simp [alistUpdate, hk]
      · simp [alistUpdate, hk, ih]

theorem alistLookup_update_ne {κ α : Type} [DecidableEq κ]
    (l : List (κ × α)) (key key' : κ) (v : α) (h : key ≠ key') :
    alistLookup (alistUpdate l key v) key' = alistLookup l key' := by
  induction l with
  | nil => simp [alistUpdate, h]
  | cons hd tl ih =>
      obtain ⟨k, w⟩ := hd
      by_cases hk : k = key
      · subst hk
        simp [alistUpdate, h]
      · simp [alistUpdate, hk, ih]

/-- The prefix-tree node as used by drain.rs: a map of literal children, an
optional wildcard ("param") child, and the ordered list of cluster ids
attached at this node. -/
inductive Node where
  | mk (children : List (String × Node)) (paramChild : Option Node) (clusterIds : List Nat)

def Node.children : Node → List (String × Node)
  | .mk c _ _ => c

def Node.paramChild : Node → Option Node
  | .mk _ p _ => p

def Node.clusterIds : Node → List Nat
  | .mk _ _ ids => ids

@[simp] theorem Node.children_mk (c : List (String × Node)) (p : Option Node) (ids : List Nat) :
    (Node.mk c p ids).children = c := rfl

@[simp] theorem Node.paramChild_mk (c : List (String × Node)) (p : Option Node) (ids : List Nat) :
    (Node.mk c p ids).paramChild = p := rfl

@[simp] theorem Node.clusterIds_mk (c : List (String × Node)) (p : Option Node) (ids : List Nat) :
    (Node.mk c p ids).clusterIds = ids := rfl

/-- `Node::new`. -/
def Node.empty : Node := Node.mk [] none []

/-- `Node::find_next`: the literal child for the token, else the wildcard. -/
def Node.findNext (n : Node) (t : String) : Option Node :=
  match alistLookup n.children t with
  | some c => some c
  | none => n.paramChild

/-- `Node::child_count` as written in the source: both branches of its
conditional return `1 + self.children.len()`, so the presence of the
wildcard child makes no difference. -/
def Node.child_count (n : Node) : Nat :=
  if n.paramChild.isSome then 1 + n.children.length else 1 + n.children.length

/-- `Drain::has_numbers`: any ASCII digit among the characters. -/
def hasNumbers (s : String) : Bool :=
  s.toList.any (fun c => c.isDigit)

/-- The `Drain` struct from drain.rs.  `sim_th` is modelled over `ℚ`, the
root node's first layer is keyed by the token count (see module comment),
and the serde-skipped token affix fields keep their roles.  The source
field names `token_prefix`/`token_suffix` are rendered as
`tokenPrefixStr`/`tokenSuffixStr`. -/
structure Drain where
  log_cluster_depth : Nat
  sim_th : ℚ
  max_children : Nat
  max_clusters : Option Nat
  extra_delimiters : List String
  parametrize_numeric_tokens : Bool
  root_node : List (Nat × Node)
  id_to_cluster : List (Nat × LogCluster)
  clusters_counter : Nat
  tokenPrefixStr : String
  tokenSuffixStr : String
  token_template : String
  token_template_counter : Nat
  token_template_check : String

/-- `Drain::new` (the `depth < 3` panic is a construction-time error; all
instantiations below use `depth ≥ 3`). -/
def Drain.new (depth : Nat) (simTh : ℚ) (maxChildren : Nat) (maxClusters : Option Nat)
    (extraDelimiters : List String) (paramNumeric : Bool)
    (tokenTemplate tokPre tokSuf : String) : Drain :=
  let tokenTemplate := if tokenTemplate.isEmpty then "TOKEN" else tokenTemplate
  { log_cluster_depth := depth
    sim_th := simTh
    max_children := maxChildren
    max_clusters := maxClusters
    extra_delimiters := extraDelimiters
    parametrize_numeric_tokens := paramNumeric
    root_node := []
    id_to_cluster := []
    clusters_counter := 0
    tokenPrefixStr := tokPre
    tokenSuffixStr := tokSuf
    token_template := tokenTemplate
    token_template_counter := 0
    token_template_check := tokPre ++ tokenTemplate }

/-- Rust `str::trim` over the character list: drop whitespace from both
ends. -/
def trimChars (l : List Char) : List Char :=
  ((l.dropWhile (fun c => c.isWhitespace)).reverse.dropWhile
    (fun c => c.isWhitespace)).reverse

/-- Rust `str::replace` over character lists: replace every non-overlapping
occurrence of `pat` (scanned left to right) by `rep`.  (Rust's behaviour for
an empty pattern is not needed by the code under study; the guard keeps the
recursion well founded.) -/
def replaceAllChars (pat rep : List Char) : List Char → List Char
  | [] => []
  | c :: rest =>
    if pat ≠ [] ∧ pat.isPrefixOf (c :: rest) then
      rep ++ replaceAllChars pat rep ((c :: rest).drop pat.length)
    else c :: replaceAllChars pat rep rest
termination_by l => l.length
decreasing_by
  · rename_i h
    simp [List.length_drop]
    have : pat.length ≥ 1 := by
      cases pat with
      | nil => exact absurd rfl h.1
      | cons p ps => simp
    omega
  · simp

/-- Rust `str::split_whitespace` over the character list: the maximal runs
of non-whitespace characters, in order.  `acc` holds the current run in
reverse. -/
def splitWhitespaceAux : List Char → List Char → List String
  | [], acc => if acc = [] then [] else [String.mk acc.reverse]
  | c :: rest, acc =>
    if c.isWhitespace then
      if acc = [] then splitWhitespaceAux rest []
      else String.mk acc.reverse :: splitWhitespaceAux rest []
    else splitWhitespaceAux rest (c :: acc)

/-- `Drain::get_content_as_tokens`: trim, substitute the extra delimiters by
a space, split on whitespace runs. -/
def Drain.get_content_as_tokens (d : Drain) (content : String) : List String :=
  let c := trimChars content.toList
  let c := d.extra_delimiters.foldl
    (fun acc delim => replaceAllChars delim.toList [' '] acc) c
  splitWhitespaceAux c []

/-- `Drain::is_token`: `token.starts_with(template)`. -/
def Drain.is_token (template token : String) : Bool :=
  template.toList.isPrefixOf token.toList

/-- `Drain::get_seq_distance`.  The loop accumulates
`(sim_tokens, param_count)` over the zipped sequences exactly as the source
does. -/
def Drain.get_seq_distance (seq1 seq2 : List String) (tokenTemplate : String)
    (includeParams : Bool) : ℚ × Int :=
  if seq1.length ≠ seq2.length then (0, 0)
  else if seq1.isEmpty then (1, 0)
  else
    let counts := (seq1.zip seq2).foldl
      (fun (acc : Nat × Nat) p =>
        if Drain.is_token tokenTemplate p.1 then (acc.1, acc.2 + 1)
        else if p.1 = p.2 then (acc.1 + 1, acc.2) else acc) (0, 0)
    let simTokens := if includeParams then counts.1 + counts.2 else counts.1
    -- mkRat n d = (n : ℚ) / (d : ℚ) (Rat.mkRat_eq_div); the ratio is written
    -- this way so that concrete runs reduce definitionally
    (mkRat (simTokens : Int) seq1.length, (counts.2 : Int))

/-- One step of the `Drain::fast_match` selection loop. -/
def fastMatchStep (idToCluster : List (Nat × LogCluster)) (tokens : List String)
    (tokenTemplate : String) (includeParams : Bool)
    (acc : ℚ × Int × Option LogCluster) (cid : Nat) : ℚ × Int × Option LogCluster :=
  match alistLookup idToCluster cid with
  | none => acc
  | some cluster =>
      let sd := Drain.get_seq_distance cluster.tokens tokens tokenTemplate includeParams
      if sd.1 > acc.1 ∨ (sd.1 = acc.1 ∧ sd.2 > acc.2.1) then (sd.1, sd.2, some cluster)
      else acc

/-- `Drain::fast_match`. -/
def Drain.fast_match (idToCluster : List (Nat × LogCluster)) (clusterIds : List Nat)
    (tokens : List String) (simTh : ℚ) (includeParams : Bool)
    (tokenTemplate : String) : Option Nat :=
  let r := clusterIds.foldl (fastMatchStep idToCluster tokens tokenTemplate includeParams)
    (-1, -1, none)
  if r.1 ≥ simTh then r.2.2.map (fun c => c.cluster_id) else none

/-- The descent loop of `Drain::tree_search`: stops at `max_node_depth` or at
the token count, follows the literal child first and the wildcard child
otherwise, and fails when neither exists. -/
def treeDescend : Node → List String → Nat → Nat → Nat → Option Node
  | node, [], _, _, _ => some node
  | node, t :: ts, curDepth, maxNodeDepth, tokenCount =>
    if curDepth ≥ maxNodeDepth then some node
    else if curDepth = tokenCount then some node
    else
      match node.findNext t with
      | some nxt => treeDescend nxt ts (curDepth + 1) maxNodeDepth tokenCount
      | none => none

/-- `Drain::tree_search`.  Note that the source passes its `token_template`
argument (not `token_template_check`) through to `fast_match`. -/
def Drain.tree_search (root : List (Nat × Node)) (idToCluster : List (Nat × LogCluster))
    (tokens : List String) (simTh : ℚ) (includeParams : Bool)
    (logClusterDepth : Nat) (tokenTemplate : String) : Option Nat :=
  match alistLookup root tokens.length with
  | none => none
  | some curNode =>
    if tokens.length = 0 then curNode.clusterIds.head?
    else
      match treeDescend curNode tokens 1 (logClusterDepth - 2) tokens.length with
      | none => none
      | some leaf =>
          Drain.fast_match idToCluster leaf.clusterIds tokens simTh includeParams tokenTemplate

/-- The token-rebuilding pass of `LogCluster::update_template`: zip the
observed tokens with the template, keep a template token when it equals the
observed one or satisfies `is_token`, otherwise mint a fresh placeholder.
The mint counter is threaded exactly as the Rust closure does
(`counter += 1` before formatting). -/
def updTokens (isTok : String → Bool) (mint : Nat → String) :
    List (String × String) → Nat → List String × Nat
  | [], k => ([], k)
  | (t1, t2) :: ps, k =>
    if t1 == t2 || isTok t2 then
      let r := updTokens isTok mint ps k
      (t2 :: r.1, r.2)
    else
      let r := updTokens isTok mint ps (k + 1)
      (mint (k + 1) :: r.1, r.2)

/-- `LogCluster::update_template`.  `mint k` stands for the Rust
`get_next_token` closure invoked when the counter has just been advanced to
`k`.  Returns the updated cluster, the update kind, and the final counter. -/
def LogCluster.update_template (c : LogCluster) (tokens : List String)
    (isTok : String → Bool) (mint : Nat → String) (counter : Nat) :
    LogCluster × UpdateType × Nat :=
  let r := updTokens isTok mint (tokens.zip c.tokens) counter
  if r.1 ≠ c.tokens then
    ({ c with tokens := r.1, size := c.size + 1 }, UpdateType.Updated, r.2)
  else
    ({ c with size := c.size + 1 }, UpdateType.None, r.2)

/-- The descent loop of `Drain::add_seq_to_prefix_tree` below the length
partition node (the drain.rs insertion; cluster.rs has its own variant,
`CNode.add_cluster` below). -/
def insertSeq (maxChildren : Nat) (paramNumeric : Bool) (cid : Nat)
    (maxNodeDepth tokenCount : Nat) : Node → List String → Nat → Node
  | node, [], _ => node
  | node, t :: ts, curDepth =>
    if curDepth ≥ maxNodeDepth ∨ curDepth ≥ tokenCount then
      Node.mk node.children node.paramChild (node.clusterIds ++ [cid])
    else
      match alistLookup node.children t with
      | some child =>
          Node.mk
            (alistUpdate node.children t
              (insertSeq maxChildren paramNumeric cid maxNodeDepth tokenCount child ts (curDepth + 1)))
            node.paramChild node.clusterIds
      | none =>
          if paramNumeric && hasNumbers t then
            Node.mk node.children
              (some (insertSeq maxChildren paramNumeric cid maxNodeDepth tokenCount
                (node.paramChild.getD Node.empty) ts (curDepth + 1)))
              node.clusterIds
          else if node.paramChild.isSome then
            if node.child_count < maxChildren then
              Node.mk
                (alistUpdate node.children t
                  (insertSeq maxChildren paramNumeric cid maxNodeDepth tokenCount
                    Node.empty ts (curDepth + 1)))
                node.paramChild node.clusterIds
            else
              Node.mk node.children
                (some (insertSeq maxChildren paramNumeric cid maxNodeDepth tokenCount
                  (node.paramChild.getD Node.empty) ts (curDepth + 1)))
                node.clusterIds
          else if node.child_count + 1 < maxChildren then
            Node.mk
              (alistUpdate node.children t
                (insertSeq maxChildren paramNumeric cid maxNodeDepth tokenCount
                  Node.empty ts (curDepth + 1)))
              node.paramChild node.clusterIds
          else
            -- both the `child_count + 1 == max_children` branch and the
            -- final fallback branch descend into the wildcard child
            Node.mk node.children
              (some (insertSeq maxChildren paramNumeric cid maxNodeDepth tokenCount
                (node.paramChild.getD Node.empty) ts (curDepth + 1)))
              node.clusterIds

/-- `Drain::add_seq_to_prefix_tree`: fetch-or-create the length partition
node; an empty token sequence is attached there directly, otherwise the
descent loop runs from depth 1. -/
def Drain.add_seq_to_prefix_tree (root : List (Nat × Node)) (cluster : LogCluster)
    (logClusterDepth maxChildren : Nat) (paramNumeric : Bool) : List (Nat × Node) :=
  let tokenCount := cluster.tokens.length
  let firstLayer := (alistLookup root tokenCount).getD Node.empty
  if tokenCount = 0 then
    alistUpdate root tokenCount
      (Node.mk firstLayer.children firstLayer.paramChild
        (firstLayer.clusterIds ++ [cluster.cluster_id]))
  else
    alistUpdate root tokenCount
      (insertSeq maxChildren paramNumeric cluster.cluster_id (logClusterDepth - 2)
        tokenCount firstLayer cluster.tokens 1)

/-- `Drain::add_log_message`.  The `none` branch of the inner lookup is dead
code: `fast_match` only returns ids it resolved (the source `unwrap`s). -/
def Drain.add_log_message (d : Drain) (content : String) :
    Drain × LogCluster × UpdateType :=
  let contentTokens := d.get_content_as_tokens content
  match Drain.tree_search d.root_node d.id_to_cluster contentTokens d.sim_th true
      d.log_cluster_depth d.token_template with
  | some clusterId =>
      match alistLookup d.id_to_cluster clusterId with
      | some cluster =>
          let r := cluster.update_template contentTokens
            (fun t => Drain.is_token d.token_template_check t)
            (fun k => d.tokenPrefixStr ++ d.token_template ++ toString k ++ d.tokenSuffixStr)
            d.token_template_counter
          ({ d with
              id_to_cluster := alistUpdate d.id_to_cluster clusterId r.1
              token_template_counter := r.2.2 },
           r.1, r.2.1)
      | none => (d, LogCluster.new [] 0, UpdateType.None)
  | none =>
      let clusterId := d.clusters_counter + 1
      let cluster := LogCluster.new contentTokens clusterId
      ({ d with
          clusters_counter := clusterId
          id_to_cluster := alistUpdate d.id_to_cluster clusterId cluster
          root_node := Drain.add_seq_to_prefix_tree d.root_node cluster
            d.log_cluster_depth d.max_children d.parametrize_numeric_tokens },
       cluster, UpdateType.Created)

/-- `SearchStrategy` from cluster.rs. -/
inductive SearchStrategy where
  | Full
  | Fast
  | Fallback

/-- The recursive cluster-id collection of
`Drain::get_clusters_ids_for_seq_len` (`append_clusters_recursive`): this
node's ids, then all descendants' (literal children first, wildcard last). -/
def Node.allClusterIds : Node → List Nat
  | .mk children paramChild ids =>
      ids ++
        ((children.attach.map (fun p => p.1.2.allClusterIds)).flatten ++
          (match paramChild with
           | some w => w.allClusterIds
           | none => []))
decreasing_by
  · obtain ⟨⟨t, child⟩, hmem⟩ := p
    have h := List.sizeOf_lt_of_mem hmem
    simp at h ⊢
    omega
  · simp
    omega

@[simp] theorem Node.allClusterIds_mk (children : List (String × Node))
    (paramChild : Option Node) (ids : List Nat) :
    (Node.mk children paramChild ids).allClusterIds =
      ids ++
        ((children.map (fun p => p.2.allClusterIds)).flatten ++
          (match paramChild with
           | some w => w.allClusterIds
           | none => [])) := by
  conv_lhs => rw [Node.allClusterIds.eq_def]
  dsimp only
  rw [List.attach_map_coe children (fun p => p.2.allClusterIds)]

/-- `Drain::get_clusters_ids_for_seq_len`. -/
def Drain.get_clusters_ids_for_seq_len (d : Drain) (seqLen : Nat) : List Nat :=
  match alistLookup d.root_node seqLen with
  | none => []
  | some curNode => curNode.allClusterIds

/-- `Drain::match_cluster`: read-only lookup with required similarity 1.0.
The `Fast` and `Fallback` tree searches pass `token_template`; the full
search passes `token_template_check`, exactly as the source does. -/
def Drain.match_cluster (d : Drain) (content : String) (strategy : SearchStrategy) :
    Option LogCluster :=
  let requiredSimTh : ℚ := 1
  let contentTokens := d.get_content_as_tokens content
  let fullSearch : Option LogCluster :=
    (Drain.fast_match d.id_to_cluster
        (d.get_clusters_ids_for_seq_len contentTokens.length)
        contentTokens requiredSimTh true d.token_template_check).bind
      (fun id => alistLookup d.id_to_cluster id)
  let fastSearch : Option LogCluster :=
    (Drain.tree_search d.root_node d.id_to_cluster contentTokens requiredSimTh true
        d.log_cluster_depth d.token_template).bind
      (fun id => alistLookup d.id_to_cluster id)
  match strategy with
  | .Full => fullSearch
  | .Fast => fastSearch
  | .Fallback =>
      match fastSearch with
      | some c => some c
      | none => fullSearch

/-! ### cluster.rs: `Node` and `Node::add_cluster`

cluster.rs defines its own insertion routine on nodes that store cluster
values directly (`clusters: Vec<Arc<Mutex<LogCluster>>>`); it is embedded
here as `CNode`, separate from the drain.rs tree above.  The process-global
`CLUSTER_MAP` registry is a side table that does not influence the tree or
the returned value and is not modelled. -/

/-- The cluster.rs `Node`: literal children, an optional wildcard child, and
the clusters attached at this node. -/
inductive CNode where
  | mk (children : List (String × CNode)) (wildcardChild : Option CNode)
      (clusters : List LogCluster)

def CNode.children : CNode → List (String × CNode)
  | .mk c _ _ => c

def CNode.wildcardChild : CNode → Option CNode
  | .mk _ w _ => w

def CNode.clusters : CNode → List LogCluster
  | .mk _ _ cs => cs

@[simp] theorem CNode.childrenC_mk (c : List (String × CNode)) (w : Option CNode)
    (cs : List LogCluster) : (CNode.mk c w cs).children = c := rfl

@[simp] theorem CNode.wildcardChild_mk (c : List (String × CNode)) (w : Option CNode)
    (cs : List LogCluster) : (CNode.mk c w cs).wildcardChild = w := rfl

@[simp] theorem CNode.clusters_mk (c : List (String × CNode)) (w : Option CNode)
    (cs : List LogCluster) : (CNode.mk c w cs).clusters = cs := rfl

/-- `Node::new` (cluster.rs). -/
def CNode.empty : CNode := CNode.mk [] none []

/-- `Node::has_child` (cluster.rs). -/
def CNode.has_child (n : CNode) (t : String) : Bool :=
  (alistLookup n.children t).isSome

/-- `Node::has_wildcard` (cluster.rs). -/
def CNode.has_wildcard (n : CNode) : Bool :=
  n.wildcardChild.isSome

/-- `Node::child_count` (cluster.rs), exactly as written: the conditional on
the wildcard child returns `1 + self.children.len()` in both branches. -/
def CNode.child_count (n : CNode) : Nat :=
  if n.wildcardChild.isSome then 1 + n.children.length else 1 + n.children.length

/-- The descent loop of `Node::add_cluster` (cluster.rs).  Mirrors the Rust
`for token in tokens` loop: the terminal condition attaches the cluster and
returns it; the numeric-token branch ends in `continue`, which skips the
`current_depth += 1` at the bottom of the loop body; falling off the loop
returns `None` without attaching the cluster anywhere. -/
def CNode.add_cluster_loop (maxChildren : Nat) (wparamNumeric : Bool)
    (cluster : LogCluster) (maxNodeDepth tokenCount : Nat) :
    CNode → List String → Nat → CNode × Option LogCluster
  | node, [], _ => (node, none)
  | node, t :: ts, curDepth =>
    if curDepth ≥ maxNodeDepth ∨ curDepth ≥ tokenCount then
      (CNode.mk node.children node.wildcardChild (node.clusters ++ [cluster]), some cluster)
    else
      match alistLookup node.children t with
      | some child =>
          let r := CNode.add_cluster_loop maxChildren wparamNumeric cluster maxNodeDepth
            tokenCount child ts (curDepth + 1)
          (CNode.mk (alistUpdate node.children t r.1) node.wildcardChild node.clusters, r.2)
      | none =>
          if wparamNumeric && hasNumbers t then
            -- `continue`: the depth counter is not incremented on this path
            let r := CNode.add_cluster_loop maxChildren wparamNumeric cluster maxNodeDepth
              tokenCount (node.wildcardChild.getD CNode.empty) ts curDepth
            (CNode.mk node.children (some r.1) node.clusters, r.2)
          else if node.wildcardChild.isSome then
            if node.child_count < maxChildren then
              let r := CNode.add_cluster_loop maxChildren wparamNumeric cluster maxNodeDepth
                tokenCount CNode.empty ts (curDepth + 1)
              (CNode.mk (alistUpdate node.children t r.1) node.wildcardChild node.clusters, r.2)
            else
              let r := CNode.add_cluster_loop maxChildren wparamNumeric cluster maxNodeDepth
                tokenCount (node.wildcardChild.getD CNode.empty) ts (curDepth + 1)
              (CNode.mk node.children (some r.1) node.clusters, r.2)
          else if node.child_count + 1 < maxChildren then
            let r := CNode.add_cluster_loop maxChildren wparamNumeric cluster maxNodeDepth
              tokenCount CNode.empty ts (curDepth + 1)
            (CNode.mk (alistUpdate node.children t r.1) node.wildcardChild node.clusters, r.2)
          else
            -- `child_count + 1 == max_children` and the final fallback both
            -- create and descend into the wildcard child
            let r := CNode.add_cluster_loop maxChildren wparamNumeric cluster maxNodeDepth
              tokenCount (node.wildcardChild.getD CNode.empty) ts (curDepth + 1)
            (CNode.mk node.children (some r.1) node.clusters, r.2)

/-- `Node::add_cluster` (cluster.rs). -/
def CNode.add_cluster (node : CNode) (cluster_id : Nat) (tokens : List String)
    (log_cluster_depth maxChildren : Nat) (wparamNumeric : Bool) :
    CNode × Option LogCluster :=
  let cluster := LogCluster.new tokens cluster_id
  if tokens.length = 0 then
    (CNode.mk node.children node.wildcardChild (node.clusters ++ [cluster]), some cluster)
  else
    CNode.add_cluster_loop maxChildren wparamNumeric cluster (log_cluster_depth - 2)
      tokens.length node tokens 1

/-! ### template_miner.rs: the miner facade

The persistence handler and wall clock are external collaborators; they are
modelled by explicit parameters: `now` stands for `current_time_sec()` and
`saveOk` for the success of `handler.save_state(..)`.  The masker is the
composition of the configured masking functions (the concrete miners below
use none, i.e. the identity mask). -/

/-- The miner state (template_miner.rs).  `persistenceAttached` models
`persistence_handler.is_some()`. -/
structure TemplateMiner where
  drain : Drain
  masker : List (String → String)
  persistenceAttached : Bool
  last_save_time : Nat
  state_dirty : Bool
  snapshot_interval_minutes : Nat

/-- `LogMasker::mask`: apply the masking instructions in order. -/
def TemplateMiner.mask (m : TemplateMiner) (content : String) : String :=
  m.masker.foldl (fun acc f => f acc) content

/-- The serialized snapshot payload.  `save_state` serializes
`SerializableDrain::from(&self.drain)`; since `load_state` never reads the
payload (see `TemplateMiner.load_state`), it is modelled as the drain state
itself. -/
def TemplateMiner.save_payload (m : TemplateMiner) : Drain :=
  m.drain

/-- `TemplateMiner::save_state`: with a handler attached, serialize and hand
the bytes to the handler; on success update `last_save_time` (and nothing
else — in particular `state_dirty` is not touched); on failure the `?`
operator returns early.  The returned flag is the `Result`. -/
def TemplateMiner.save_state (m : TemplateMiner) (now : Nat) (saveOk : Bool) :
    TemplateMiner × Bool :=
  if m.persistenceAttached then
    if saveOk then ({ m with last_save_time := now }, true) else (m, false)
  else (m, true)

/-- `TemplateMiner::load_state` as written in the source: the handler's
bytes are fetched, but the deserialization is commented out
("Decompression logic would go here"), so the miner state is returned
unchanged whatever the payload holds. -/
def TemplateMiner.load_state (m : TemplateMiner) (_state : Option Drain) : TemplateMiner :=
  m

/-- `TemplateMiner::should_save_state`. -/
def TemplateMiner.should_save_state (m : TemplateMiner) (now : Nat) : Bool :=
  decide (now - m.last_save_time ≥ m.snapshot_interval_minutes * 60) && m.state_dirty

/-- `TemplateMiner::add_log_message`: mask, forward to the drain, mark the
dirty flag, and snapshot when a handler is attached and
`should_save_state`; a failed snapshot is only logged. -/
def TemplateMiner.add_log_message (m : TemplateMiner) (now : Nat) (saveOk : Bool)
    (logMessage : String) : TemplateMiner × LogCluster × UpdateType :=
  let masked := m.mask logMessage
  let r := m.drain.add_log_message masked
  let m := { m with drain := r.1, state_dirty := m.state_dirty || decide (r.2.2 ≠ UpdateType.None) }
  let m :=
    if m.persistenceAttached && m.should_save_state now then (m.save_state now saveOk).1
    else m
  (m, r.2.1, r.2.2)

/-- `TemplateMiner::match_cluster`: mask, then forward. -/
def TemplateMiner.match_cluster (m : TemplateMiner) (content : String)
    (strategy : SearchStrategy) : Option LogCluster :=
  m.drain.match_cluster (m.mask content) strategy

/-! ### template_miner.rs: `get_template_parameter_extraction_regex`

The regex construction is a pure string transformation; it is embedded at
the character level.  `regex::escape` prepends a backslash to every
meta character of `regex-syntax` (space is *not* among them), and
`Regex::new(r"\\ ").replace_all(.., r"\\s+")` replaces every
backslash-space pair by the four characters backslash backslash `s` `+`
(the `regex` crate's replacement strings give backslashes no special
meaning). -/

/-- `regex_syntax::is_meta_character`: the characters `regex::escape`
escapes. -/
def isMetaChar (c : Char) : Bool :=
  c = '\\' || c = '.' || c = '+' || c = '*' || c = '?' || c = '(' || c = ')' ||
  c = '|' || c = '[' || c = ']' || c = '\x7b' || c = '\x7d' || c = '^' ||
  c = '$' || c = '#' || c = '&' || c = '-' || c = '~'

/-- `regex::escape` over the character list. -/
def escapeRegexChars : List Char → List Char
  | [] => []
  | c :: rest =>
      if isMetaChar c then '\\' :: c :: escapeRegexChars rest
      else c :: escapeRegexChars rest

/-- Rust `str::replacen(pat, rep, 1)` over character lists: replace the
first occurrence of `pat`, if any. -/
def replaceFirstList (pat rep : List Char) : List Char → List Char
  | [] => []
  | c :: rest =>
    if pat.isPrefixOf (c :: rest) then rep ++ (c :: rest).drop pat.length
    else c :: replaceFirstList pat rep rest

/-- The final space substitution of
`get_template_parameter_extraction_regex`: every occurrence of
backslash-space is replaced by the replacement text `\\s+` — four
characters, because the `regex` crate copies replacement backslashes
verbatim. -/
def substEscapedSpaces : List Char → List Char
  | [] => []
  | '\\' :: ' ' :: rest => '\\' :: '\\' :: 's' :: '+' :: substEscapedSpaces rest
  | c :: rest => c :: substEscapedSpaces rest

/-- `create_capture_regex` for the wildcard mask name `"*"` (no masking
instructions configured): the alternation is just `.+?` and the group is
named `p_k`. -/
def createCaptureRegexStar (k : Nat) : List Char :=
  ("(?P<p_" ++ toString k ++ ">.+?)").toList

/-- The per-mask-name replacement loop of
`get_template_parameter_extraction_regex`, for the mask name `"*"`: replace
one occurrence at a time until the string no longer changes, advancing the
group counter on every attempt.  `fuel` bounds the iteration (each
successful step removes one occurrence of the search string and the
replacement text contains no backslash, so `length + 1` steps always
suffice; only concrete runs are used below). -/
def replaceStarLoop (searchStr : List Char) : Nat → Nat → List Char → List Char
  | 0, _, s => s
  | fuel + 1, k, s =>
    let s' := replaceFirstList searchStr (createCaptureRegexStar k) s
    if s' = s then s
    else replaceStarLoop searchStr fuel (k + 1) s'

/-- `TemplateMiner::get_template_parameter_extraction_regex` for a miner
with no masking instructions (then the mask-name set is exactly `{"*"}` and
the `exact_matching` flag makes no difference): escape the template,
replace the escaped `PREFIX*SUFFIX` occurrences by capture groups, run the
space substitution, and anchor. -/
def get_template_parameter_extraction_regex (maskPre maskSuf : String)
    (logTemplate : String) : String :=
  let escapedPre := escapeRegexChars maskPre.toList
  let escapedSuf := escapeRegexChars maskSuf.toList
  let tmpl := escapeRegexChars logTemplate.toList
  let searchStr := escapedPre ++ escapeRegexChars "*".toList ++ escapedSuf
  let tmpl := replaceStarLoop searchStr (tmpl.length + 1) 0 tmpl
  let tmpl := substEscapedSpaces tmpl
  "^" ++ String.mk tmpl ++ "$"

/-! ### General lemmas about the similarity computation -/

theorem countsFold (tt : String) (l : List (String × String)) :
    ∀ a b : Nat,
      l.foldl (fun (acc : Nat × Nat) p =>
        if Drain.is_token tt p.1 then (acc.1, acc.2 + 1)
        else if p.1 = p.2 then (acc.1 + 1, acc.2) else acc) (a, b)
      = (a + l.countP (fun p => !Drain.is_token tt p.1 && p.1 == p.2),
         b + l.countP (fun p => Drain.is_token tt p.1)) := by
  induction l with
  | nil => intro a b; simp
  | cons hd tl ih =>
      intro a b
      obtain ⟨x, y⟩ := hd
      by_cases hx : Drain.is_token tt x = true
      · simp [List.countP_cons, hx, ih, Prod.ext_iff]
        omega
      · have hx' : Drain.is_token tt x = false := by simpa using hx
        by_cases he : x = y
        · subst he
          simp [List.countP_cons, hx', ih, Prod.ext_iff]
          omega
        · simp [List.countP_cons, hx', he, ih, Prod.ext_iff]

theorem countP_disj (p q : String × String → Bool) (l : List (String × String)) :
    l.countP (fun x => !p x && q x) + l.countP p
      = l.countP (fun x => p x || q x) := by
  induction l with
  | nil => simp
  | cons hd tl ih =>
      by_cases hp : p hd
      · simp [List.countP_cons, hp]
        omega
      · by_cases hq : q hd
        · simp [List.countP_cons, hp, hq]
          omega
        · simp [List.countP_cons, hp, hq, ih]

/-- Closed form of `Drain::get_seq_distance`: similarity 0 for distinct
lengths, 1 for empty sequences, and otherwise the count of positions whose
template token is a placeholder or equals the observed token (placeholders
counted only with `include_params`), divided by the length. -/
theorem get_seq_distance_eq (seq1 seq2 : List String) (tt : String) (ip : Bool) :
    Drain.get_seq_distance seq1 seq2 tt ip =
      ((if seq1.length ≠ seq2.length then 0
        else if seq1 = [] then 1
        else ((if ip then (seq1.zip seq2).countP (fun p => Drain.is_token tt p.1 || p.1 == p.2)
               else (seq1.zip seq2).countP (fun p => !Drain.is_token tt p.1 && p.1 == p.2) : ℕ) : ℚ)
              / (seq1.length : ℚ)),
       (if seq1.length ≠ seq2.length then 0
        else ((seq1.zip seq2).countP (fun p => Drain.is_token tt p.1) : Int))) := by
  unfold Drain.get_seq_distance
  by_cases hlen : seq1.length ≠ seq2.length
  · simp [hlen]
  · by_cases hemp : seq1 = []
    · subst hemp
      have h2 : seq2 = [] := by
        simpa using (not_not.mp hlen).symm
      subst h2
      simp
    · have hne : seq1.isEmpty = false := by
        simpa [List.isEmpty_iff] using hemp
      simp only [hlen, hne, if_false, ite_false, Bool.false_eq_true, hemp]
      rw [countsFold]
      simp only [Nat.zero_add, Prod.mk.injEq]
      constructor
      · rw [Rat.mkRat_eq_div]
        by_cases hip : ip
        · simp only [hip, if_pos rfl]
          rw [← countP_disj (fun p => Drain.is_token tt p.1) (fun p => p.1 == p.2)]
          push_cast
          ring
        · simp only [hip, Bool.false_eq_true, if_false, ite_false]
          push_cast
          ring
      · trivial

theorem get_seq_distance_fst_nonneg (seq1 seq2 : List String) (tt : String) (ip : Bool) :
    0 ≤ (Drain.get_seq_distance seq1 seq2 tt ip).1 := by
  unfold Drain.get_seq_distance
  by_cases hlen : seq1.length ≠ seq2.length
  · simp [hlen]
  · by_cases hemp : seq1.isEmpty
    · simp [hlen, hemp]
    · simp only [hlen, hemp, if_false, ite_false, Bool.false_eq_true]
      rw [Rat.mkRat_eq_div]
      apply div_nonneg
      · exact_mod_cast Int.ofNat_nonneg _
      · exact_mod_cast Nat.zero_le _

/-! ### The lexicographic selection of `fast_match` -/

/-- Strict lexicographic order on (similarity, param count) pairs — the
improvement test of the `fast_match` loop. -/
def lexLt (a b : ℚ × Int) : Prop :=
  a.1 < b.1 ∨ (a.1 = b.1 ∧ a.2 < b.2)

theorem lexLt_irrefl (a : ℚ × Int) : ¬ lexLt a a := by
  simp [lexLt]

theorem lexLt_trans {a b c : ℚ × Int} (h1 : lexLt a b) (h2 : lexLt b c) : lexLt a c := by
  rcases h1 with h1 | ⟨h1e, h1p⟩ <;> rcases h2 with h2 | ⟨h2e, h2p⟩
  · exact Or.inl (lt_trans h1 h2)
  · exact Or.inl (h2e ▸ h1)
  · exact Or.inl (h1e ▸ h2)
  · exact Or.inr ⟨h1e.trans h2e, lt_trans h1p h2p⟩

theorem lexLt_asymm {a b : ℚ × Int} (h : lexLt a b) : ¬ lexLt b a := by
  intro h'
  exact lexLt_irrefl a (lexLt_trans h h')

theorem lexLt_of_not_lexLt {a b : ℚ × Int} (h : ¬ lexLt a b) (hne : b ≠ a) : lexLt b a := by
  rcases lt_trichotomy a.1 b.1 with hlt | heq | hgt
  · exact absurd (Or.inl hlt) h
  · rcases lt_trichotomy a.2 b.2 with plt | peq | pgt
    · exact absurd (Or.inr ⟨heq, plt⟩) h
    · exact absurd (Prod.ext heq.symm peq.symm) hne
    · exact Or.inr ⟨heq.symm, pgt⟩
  · exact Or.inl hgt

/-- One step of the `fast_match` selection over the resolved cluster. -/
def selStep (score : LogCluster → ℚ × Int) (acc : ℚ × Int × Option LogCluster)
    (c : LogCluster) : ℚ × Int × Option LogCluster :=
  if (score c).1 > acc.1 ∨ ((score c).1 = acc.1 ∧ (score c).2 > acc.2.1) then
    ((score c).1, (score c).2, some c)
  else acc

theorem selStep_pos {score : LogCluster → ℚ × Int} {acc : ℚ × Int × Option LogCluster}
    {c : LogCluster} (h : lexLt (acc.1, acc.2.1) (score c)) :
    selStep score acc c = ((score c).1, (score c).2, some c) := by
  unfold selStep
  rw [if_pos]
  rcases h with h | ⟨he, hp⟩
  · exact Or.inl h
  · exact Or.inr ⟨he.symm, hp⟩

theorem selStep_neg {score : LogCluster → ℚ × Int} {acc : ℚ × Int × Option LogCluster}
    {c : LogCluster} (h : ¬ lexLt (acc.1, acc.2.1) (score c)) :
    selStep score acc c = acc := by
  unfold selStep
  rw [if_neg]
  intro hcontra
  apply h
  rcases hcontra with hc | ⟨hce, hcp⟩
  · exact Or.inl hc
  · exact Or.inr ⟨hce.symm, hcp⟩

theorem fastMatchStep_eq_selStep (idToCluster : List (Nat × LogCluster))
    (tokens : List String) (tt : String) (ip : Bool)
    (acc : ℚ × Int × Option LogCluster) (cid : Nat) :
    fastMatchStep idToCluster tokens tt ip acc cid =
      match alistLookup idToCluster cid with
      | none => acc
      | some c => selStep (fun c => Drain.get_seq_distance c.tokens tokens tt ip) acc c := rfl

theorem foldl_fastMatchStep (idToCluster : List (Nat × LogCluster))
    (tokens : List String) (tt : String) (ip : Bool) :
    ∀ (ids : List Nat) (acc : ℚ × Int × Option LogCluster),
      ids.foldl (fastMatchStep idToCluster tokens tt ip) acc
        = (ids.filterMap (alistLookup idToCluster)).foldl
            (selStep (fun c => Drain.get_seq_distance c.tokens tokens tt ip)) acc := by
  intro ids
  induction ids with
  | nil => intro acc; rfl
  | cons hd tl ih =>
      intro acc
      rcases hl : alistLookup idToCluster hd with _ | c
      · simp only [List.foldl_cons, List.filterMap_cons, hl]
        rw [fastMatchStep_eq_selStep, hl, ih]
      · simp only [List.foldl_cons, List.filterMap_cons, hl]
        rw [fastMatchStep_eq_selStep, hl, ih]

/-- The selection fold keeps the earliest candidate attaining the
lexicographic maximum of the scores (relative to the virtual score of the
accumulator). -/
theorem foldl_selStep_spec (score : LogCluster → ℚ × Int) :
    ∀ (cs : List LogCluster) (a1 : ℚ) (a2 : Int) (mc : Option LogCluster),
      ((∀ c ∈ cs, ¬ lexLt (a1, a2) (score c)) ∧
        cs.foldl (selStep score) (a1, a2, mc) = (a1, a2, mc)) ∨
      (∃ i : Fin cs.length,
        lexLt (a1, a2) (score (cs.get i)) ∧
        (∀ j : Fin cs.length, ¬ lexLt (score (cs.get i)) (score (cs.get j))) ∧
        (∀ j : Fin cs.length, (j : Nat) < (i : Nat) →
          lexLt (score (cs.get j)) (score (cs.get i))) ∧
        cs.foldl (selStep score) (a1, a2, mc) =
          ((score (cs.get i)).1, (score (cs.get i)).2, some (cs.get i))) := by
  intro cs
  induction cs with
  | nil =>
      intro a1 a2 mc
      exact Or.inl ⟨by simp, rfl⟩
  | cons x xs ih =>
      intro a1 a2 mc
      by_cases hx : lexLt (a1, a2) (score x)
      · -- the head strictly improves the accumulator
        have hstep : selStep score (a1, a2, mc) x = ((score x).1, (score x).2, some x) :=
          selStep_pos hx
        rcases ih (score x).1 (score x).2 (some x) with ⟨hall, heq⟩ | ⟨i, h1, h2, h3, heq⟩
        · refine Or.inr ⟨⟨0, by simp⟩, ?_, ?_, ?_, ?_⟩
          · simpa using hx
          · intro j
            obtain ⟨j, hj⟩ := j
            cases j with
            | zero => simpa using lexLt_irrefl (score x)
            | succ k =>
                have hk : xs.get ⟨k, by simpa using hj⟩ ∈ xs := List.get_mem _ _ _
                simpa using hall _ hk
          · intro j hj
            simp at hj
          · simp only [List.foldl_cons, hstep]
            simpa using heq
        · refine Or.inr ⟨⟨i.1 + 1, by simpa using Nat.succ_lt_succ i.2⟩, ?_, ?_, ?_, ?_⟩
          · have hget : (x :: xs).get ⟨i.1 + 1, by simpa using Nat.succ_lt_succ i.2⟩
                = xs.get i := by simp [List.get]
            rw [hget]
            exact lexLt_trans hx h1
          · intro j
            obtain ⟨j, hj⟩ := j
            have hget : (x :: xs).get ⟨i.1 + 1, by simpa using Nat.succ_lt_succ i.2⟩
                = xs.get i := by simp [List.get]
            cases j with
            | zero =>
                rw [hget]
                intro hcon
                exact lexLt_asymm h1 (by simpa using hcon)
            | succ k =>
                rw [hget]
                have := h2 ⟨k, by simpa using hj⟩
                simpa using this
          · intro j hj
            obtain ⟨j, hjlt⟩ := j
            have hget : (x :: xs).get ⟨i.1 + 1, by simpa using Nat.succ_lt_succ i.2⟩
                = xs.get i := by simp [List.get]
            cases j with
            | zero =>
                rw [hget]
                simpa using h1
            | succ k =>
                rw [hget]
                have hk : k < i.1 := by simpa using hj
                have := h3 ⟨k, by simpa using hjlt⟩ hk
                simpa using this
          · simp only [List.foldl_cons, hstep]
            rw [heq]
            congr 1 <;> simp [List.get]
      · -- the head does not improve: the accumulator survives
        have hstep : selStep score (a1, a2, mc) x = (a1, a2, mc) := selStep_neg hx
        rcases ih a1 a2 mc with ⟨hall, heq⟩ | ⟨i, h1, h2, h3, heq⟩
        · refine Or.inl ⟨?_, ?_⟩
          · intro c hc
            rcases List.mem_cons.mp hc with rfl | hc
            · exact hx
            · exact hall c hc
          · simp only [List.foldl_cons, hstep]
            exact heq
        · refine Or.inr ⟨⟨i.1 + 1, by simpa using Nat.succ_lt_succ i.2⟩, ?_, ?_, ?_, ?_⟩
          · have hget : (x :: xs).get ⟨i.1 + 1, by simpa using Nat.succ_lt_succ i.2⟩
                = xs.get i := by simp [List.get]
            rw [hget]
            exact h1
          · intro j
            obtain ⟨j, hj⟩ := j
            have hget : (x :: xs).get ⟨i.1 + 1, by simpa using Nat.succ_lt_succ i.2⟩
                = xs.get i := by simp [List.get]
            cases j with
            | zero =>
                rw [hget]
                intro hcon
                -- score x ≤ (a1,a2) < score i, so score i is not below score x
                have hxw : lexLt (score x) (score (xs.get i)) := by
                  by_cases hxe : score x = (a1, a2)
                  · rw [hxe]; exact h1
                  · exact lexLt_trans (lexLt_of_not_lexLt hx hxe) h1
                exact lexLt_asymm hxw (by simpa using hcon)
            | succ k =>
                rw [hget]
                have := h2 ⟨k, by simpa using hj⟩
                simpa using this
          · intro j hj
            obtain ⟨j, hjlt⟩ := j
            have hget : (x :: xs).get ⟨i.1 + 1, by simpa using Nat.succ_lt_succ i.2⟩
                = xs.get i := by simp [List.get]
            cases j with
            | zero =>
                rw [hget]
                have hxw : lexLt (score x) (score (xs.get i)) := by
                  by_cases hxe : score x = (a1, a2)
                  · rw [hxe]; exact h1
                  · exact lexLt_trans (lexLt_of_not_lexLt hx hxe) h1
                simpa using hxw
            | succ k =>
                rw [hget]
                have hk : k < i.1 := by simpa using hj
                have := h3 ⟨k, by simpa using hjlt⟩ hk
                simpa using this
          · simp only [List.foldl_cons, hstep]
            rw [heq]
            congr 1 <;> simp [List.get]

end Drain3

namespace Drain3

/-- C4: for every list of candidate clusters (the resolved ids, in traversal
order) and every token sequence, `fast_match` returns the candidate earliest
in traversal order among those maximizing the pair (similarity, param_count)
lexicographically, provided that maximum similarity is at least `sim_th`,
and returns nothing otherwise — where similarity is 0 when lengths differ,
1 when both sequences are empty, and otherwise the number of positions whose
template token is a placeholder or literally equals the observed token,
divided by the length (placeholder positions counted only when
`include_params` is set), and param_count is the number of placeholder
positions. -/
theorem C4_fast_match_selection (idToCluster : List (Nat × LogCluster))
    (clusterIds : List Nat) (tokens : List String) (simTh : ℚ) (ip : Bool)
    (tt : String) :
    let cs := clusterIds.filterMap (alistLookup idToCluster)
    let sim : LogCluster → ℚ := fun c =>
      if c.tokens.length ≠ tokens.length then 0
      else if c.tokens = [] then 1
      else ((if ip then (c.tokens.zip tokens).countP
                (fun p => Drain.is_token tt p.1 || p.1 == p.2)
             else (c.tokens.zip tokens).countP
                (fun p => !Drain.is_token tt p.1 && p.1 == p.2) : ℕ) : ℚ)
            / (c.tokens.length : ℚ)
    let pc : LogCluster → Int := fun c =>
      if c.tokens.length ≠ tokens.length then 0
      else ((c.tokens.zip tokens).countP (fun p => Drain.is_token tt p.1) : Int)
    (∀ cid : Nat,
      Drain.fast_match idToCluster clusterIds tokens simTh ip tt = some cid ↔
        ∃ i : Fin cs.length,
          cid = (cs.get i).cluster_id ∧
          simTh ≤ sim (cs.get i) ∧
          (∀ j : Fin cs.length,
            sim (cs.get j) < sim (cs.get i) ∨
              (sim (cs.get j) = sim (cs.get i) ∧ pc (cs.get j) ≤ pc (cs.get i))) ∧
          (∀ j : Fin cs.length, (j : Nat) < (i : Nat) →
            sim (cs.get j) < sim (cs.get i) ∨
              (sim (cs.get j) = sim (cs.get i) ∧ pc (cs.get j) < pc (cs.get i)))) ∧
    (Drain.fast_match idToCluster clusterIds tokens simTh ip tt = none ↔
        ∀ i : Fin cs.length, sim (cs.get i) < simTh) := by
  intro cs sim pc
  -- the score used by the code, and its agreement with the claim's formulas
  set score : LogCluster → ℚ × Int :=
    fun c => Drain.get_seq_distance c.tokens tokens tt ip with hscore
  have hsim : ∀ c, (score c).1 = sim c := by
    intro c
    show (Drain.get_seq_distance c.tokens tokens tt ip).1 = sim c
    rw [get_seq_distance_eq]
  have hpc : ∀ c, (score c).2 = pc c := by
    intro c
    show (Drain.get_seq_distance c.tokens tokens tt ip).2 = pc c
    rw [get_seq_distance_eq]
  have hnonneg : ∀ c, 0 ≤ (score c).1 := fun c => get_seq_distance_fst_nonneg _ _ _ _
  have himpr : ∀ c, lexLt (-1, -1) (score c) := by
    intro c
    exact Or.inl (lt_of_lt_of_le (by norm_num) (hnonneg c))
  have hunfold : Drain.fast_match idToCluster clusterIds tokens simTh ip tt =
      (if (cs.foldl (selStep score) (-1, -1, none)).1 ≥ simTh then
        (cs.foldl (selStep score) (-1, -1, none)).2.2.map (fun c => c.cluster_id)
       else none) := by
    unfold Drain.fast_match
    rw [foldl_fastMatchStep]
  -- convert the claim's lexicographic disjunctions to `lexLt`
  have hlex_iff : ∀ c d : LogCluster,
      (sim c < sim d ∨ (sim c = sim d ∧ pc c < pc d)) ↔ lexLt (score c) (score d) := by
    intro c d
    rw [← hsim c, ← hsim d, ← hpc c, ← hpc d]
    exact Iff.rfl
  have hle_iff : ∀ c d : LogCluster,
      (sim c < sim d ∨ (sim c = sim d ∧ pc c ≤ pc d)) ↔ ¬ lexLt (score d) (score c) := by
    intro c d
    rw [← hsim c, ← hsim d, ← hpc c, ← hpc d]
    constructor
    · rintro (h | ⟨he, hp⟩) (h' | ⟨he', hp'⟩)
      · exact absurd h' (not_lt.mpr (le_of_lt h))
      · exact absurd he'.symm (ne_of_lt h)
      · exact absurd h' (not_lt.mpr (le_of_eq he))
      · exact absurd hp' (not_lt.mpr hp)
    · intro h
      rcases lt_trichotomy ((score c).1) ((score d).1) with hlt | heq | hgt
      · exact Or.inl hlt
      · refine Or.inr ⟨heq, ?_⟩
        by_contra hpgt
        exact h (Or.inr ⟨heq.symm, lt_of_not_le hpgt⟩)
      · exact absurd (Or.inl hgt) h
  rcases foldl_selStep_spec score cs (-1) (-1) none with ⟨hall, heq⟩ | ⟨i₀, h1, h2, h3, heq⟩
  · -- no candidate resolved: the list is empty
    have hnil : cs = [] := by
      rcases cs with _ | ⟨c, rest⟩
      · rfl
      · exact absurd (himpr c) (hall c (List.mem_cons_self c rest))
    constructor
    · intro cid
      constructor
      · intro hsome
        rw [hunfold, heq] at hsome
        split at hsome <;> simp at hsome
      · rintro ⟨i, -⟩
        rw [hnil] at i
        exact absurd i.2 (by simp)
    · constructor
      · intro _ i
        rw [hnil] at i
        exact absurd i.2 (by simp)
      · intro _
        rw [hunfold, heq]
        split <;> simp
  · -- the fold selected the earliest lexicographic maximum i₀
    constructor
    · intro cid
      constructor
      · intro hsome
        rw [hunfold, heq] at hsome
        split at hsome
        · rename_i hth
          simp only [Option.map] at hsome
          simp only [Option.some.injEq] at hsome
          refine ⟨i₀, hsome.symm, ?_, ?_, ?_⟩
          · rw [← hsim]
            exact hth
          · intro j
            exact (hle_iff _ _).mpr (h2 j)
          · intro j hj
            exact (hlex_iff _ _).mpr (h3 j hj)
        · exact absurd hsome (by simp)
      · rintro ⟨i, hcid, hth, hmax, hearliest⟩
        -- the described index must be the fold's winner
        have hii : i = i₀ := by
          rcases lt_trichotomy (i : Nat) (i₀ : Nat) with hlt | heqn | hgt
          · exfalso
            have hlow := (hlex_iff _ _).mpr (h3 i hlt)
            have hup := (hle_iff _ _).mp (hmax i₀)
            rw [hlex_iff] at hlow
            exact hup hlow
          · exact Fin.ext heqn
          · exfalso
            have hlow := (hlex_iff _ _).mp (hearliest i₀ hgt)
            exact (h2 i) hlow
        subst hii
        rw [hunfold, heq, if_pos (by rw [hsim]; exact hth)]
        simp [hcid]
    · constructor
      · intro hnone i
        rw [hunfold, heq] at hnone
        split at hnone
        · simp at hnone
        · rename_i hth
          have hmaxi : ¬ lexLt (score (cs.get i₀)) (score (cs.get i)) := h2 i
          have hfst : (score (cs.get i)).1 ≤ (score (cs.get i₀)).1 := by
            by_contra hcon
            exact hmaxi (Or.inl (lt_of_not_le hcon))
          rw [← hsim]
          calc (score (cs.get i)).1 ≤ (score (cs.get i₀)).1 := hfst
            _ < simTh := lt_of_not_le hth
      · intro hallth
        rw [hunfold, heq]
        rw [if_neg]
        rw [hsim]
        exact not_le.mpr (hallth i₀)

end Drain3

namespace Drain3

/-! ### `update_template` characterization (claims C3 and C5) -/

theorem updTokens_counter (isTok : String → Bool) (mint : Nat → String) :
    ∀ (z : List (String × String)) (k : Nat),
      (updTokens isTok mint z k).2 = k + z.countP (fun p => !(p.1 == p.2 || isTok p.2)) := by
  intro z
  induction z with
  | nil => intro k; simp [updTokens]
  | cons hd tl ih =>
      obtain ⟨t1, t2⟩ := hd
      intro k
      by_cases hb : (t1 == t2 || isTok t2) = true
      · have hstep : updTokens isTok mint ((t1, t2) :: tl) k
            = (t2 :: (updTokens isTok mint tl k).1, (updTokens isTok mint tl k).2) := by
          simp [updTokens, hb]
        have hzero : (!((t1, t2).1 == (t1, t2).2 || isTok (t1, t2).2)) = false := by
          simp only []
          simp [hb]
        rw [hstep, List.countP_cons, hzero, ih]
        simp
      · have hb' : (t1 == t2 || isTok t2) = false := by simpa using hb
        have hstep : updTokens isTok mint ((t1, t2) :: tl) k
            = (mint (k + 1) :: (updTokens isTok mint tl (k + 1)).1,
               (updTokens isTok mint tl (k + 1)).2) := by
          simp [updTokens, hb']
        have hone : (!((t1, t2).1 == (t1, t2).2 || isTok (t1, t2).2)) = true := by
          simp only []
          simp [hb']
        rw [hstep, List.countP_cons, hone, ih]
        simp
        omega

theorem updTokens_length (isTok : String → Bool) (mint : Nat → String) :
    ∀ (z : List (String × String)) (k : Nat),
      (updTokens isTok mint z k).1.length = z.length := by
  intro z
  induction z with
  | nil => intro k; simp [updTokens]
  | cons hd tl ih =>
      obtain ⟨t1, t2⟩ := hd
      intro k
      by_cases hb : (t1 == t2 || isTok t2) = true
      · have hstep : updTokens isTok mint ((t1, t2) :: tl) k
            = (t2 :: (updTokens isTok mint tl k).1, (updTokens isTok mint tl k).2) := by
          simp [updTokens, hb]
        rw [hstep]
        simp [ih]
      · have hb' : (t1 == t2 || isTok t2) = false := by simpa using hb
        have hstep : updTokens isTok mint ((t1, t2) :: tl) k
            = (mint (k + 1) :: (updTokens isTok mint tl (k + 1)).1,
               (updTokens isTok mint tl (k + 1)).2) := by
          simp [updTokens, hb']
        rw [hstep]
        simp [ih]

theorem updTokens_get (isTok : String → Bool) (mint : Nat → String) :
    ∀ (z : List (String × String)) (k i : Nat) (p : String × String),
      z[i]? = some p →
      (updTokens isTok mint z k).1[i]? =
        some (if p.1 == p.2 || isTok p.2 then p.2
          else mint (k + 1 + (z.take i).countP (fun q => !(q.1 == q.2 || isTok q.2)))) := by
  intro z
  induction z with
  | nil => intro k i p hp; simp at hp
  | cons hd tl ih =>
      obtain ⟨t1, t2⟩ := hd
      intro k i p hp
      cases i with
      | zero =>
          simp only [List.getElem?_cons_zero, Option.some.injEq] at hp
          subst hp
          by_cases hb : (t1 == t2 || isTok t2) = true
          · have hstep : updTokens isTok mint ((t1, t2) :: tl) k
                = (t2 :: (updTokens isTok mint tl k).1, (updTokens isTok mint tl k).2) := by
              simp [updTokens, hb]
            rw [hstep]
            simp [hb]
          · have hb' : (t1 == t2 || isTok t2) = false := by simpa using hb
            have hstep : updTokens isTok mint ((t1, t2) :: tl) k
                = (mint (k + 1) :: (updTokens isTok mint tl (k + 1)).1,
                   (updTokens isTok mint tl (k + 1)).2) := by
              simp [updTokens, hb']
            rw [hstep]
            simp [hb']
      | succ i =>
          simp only [List.getElem?_cons_succ] at hp
          by_cases hb : (t1 == t2 || isTok t2) = true
          · have hstep : updTokens isTok mint ((t1, t2) :: tl) k
                = (t2 :: (updTokens isTok mint tl k).1, (updTokens isTok mint tl k).2) := by
              simp [updTokens, hb]
            have hzero : (!((t1, t2).1 == (t1, t2).2 || isTok (t1, t2).2)) = false := by
              simp only []
              simp [hb]
            rw [hstep]
            dsimp only
            rw [List.getElem?_cons_succ, ih k i p hp, List.take_succ_cons,
              List.countP_cons, hzero]
            simp
          · have hb' : (t1 == t2 || isTok t2) = false := by simpa using hb
            have hstep : updTokens isTok mint ((t1, t2) :: tl) k
                = (mint (k + 1) :: (updTokens isTok mint tl (k + 1)).1,
                   (updTokens isTok mint tl (k + 1)).2) := by
              simp [updTokens, hb']
            have hone : (!((t1, t2).1 == (t1, t2).2 || isTok (t1, t2).2)) = true := by
              simp only []
              simp
              simpa using hb'
            rw [hstep]
            dsimp only
            rw [List.getElem?_cons_succ, ih (k + 1) i p hp, List.take_succ_cons,
              List.countP_cons, hone]
            have harith : k + 1 + 1 + (tl.take i).countP
                (fun q => !(q.1 == q.2 || isTok q.2)) =
                k + 1 + ((tl.take i).countP (fun q => !(q.1 == q.2 || isTok q.2)) +
                  if true = true then 1 else 0) := by
              simp
              omega
            rw [harith]

/-- C3: for every cluster and every observed token sequence of the same
length as the cluster's template, `update_template` produces a new template
whose position `i` keeps the old token iff the observed token equals it or
the old token is a placeholder, replaces every other position with a freshly
minted placeholder — the mint callback being invoked exactly once per
changed position, with the counter advanced exactly per mint (position `i`
receives the counter value `counter + 1 + number of earlier changed
positions`) — increments `size` by one, and returns `Updated` iff the new
sequence differs from the previous one, else `None`. -/
theorem C3_update_template (c : LogCluster) (tokens : List String)
    (isTok : String → Bool) (mint : Nat → String) (counter : Nat)
    (hlen : tokens.length = c.tokens.length) :
    let r := c.update_template tokens isTok mint counter
    let z := tokens.zip c.tokens
    let chg : String × String → Bool := fun p => !(p.1 == p.2 || isTok p.2)
    r.1.cluster_id = c.cluster_id ∧
    r.1.size = c.size + 1 ∧
    r.2.2 = counter + z.countP chg ∧
    r.1.tokens.length = c.tokens.length ∧
    (∀ (i : Nat) (p : String × String), z[i]? = some p →
      r.1.tokens[i]? =
        some (if p.1 == p.2 || isTok p.2 then p.2
          else mint (counter + 1 + (z.take i).countP chg))) ∧
    r.2.1 = (if r.1.tokens = c.tokens then UpdateType.None else UpdateType.Updated) := by
  intro r z chg
  have hzlen : z.length = c.tokens.length := by
    simp [z, List.length_zip, hlen]
  have hru : r = (if (updTokens isTok mint z counter).1 ≠ c.tokens then
      ({ c with tokens := (updTokens isTok mint z counter).1, size := c.size + 1 },
        UpdateType.Updated, (updTokens isTok mint z counter).2)
    else ({ c with size := c.size + 1 }, UpdateType.None,
        (updTokens isTok mint z counter).2)) := rfl
  by_cases hne : (updTokens isTok mint z counter).1 ≠ c.tokens
  · rw [hru, if_pos hne]
    refine ⟨rfl, rfl, updTokens_counter isTok mint z counter, ?_, ?_, ?_⟩
    · rw [updTokens_length isTok mint z counter, hzlen]
    · intro i p hp
      exact updTokens_get isTok mint z counter i p hp
    · simp [hne]
  · rw [hru, if_neg hne]
    have heq : (updTokens isTok mint z counter).1 = c.tokens := not_not.mp hne
    refine ⟨rfl, rfl, updTokens_counter isTok mint z counter, rfl, ?_, by simp⟩
    intro i p hp
    rw [show ({ c with size := c.size + 1 } : LogCluster).tokens = c.tokens from rfl, ← heq]
    exact updTokens_get isTok mint z counter i p hp

/-- Witness for C3 at a concrete input: template `["a", "<T>", "c"]`,
observed `["a", "x", "y"]`, placeholder test `starts with "<T"`, counter 3:
position 1 is kept (placeholder), position 2 is minted with counter 4, so
the final counter is 4. -/
theorem C3_update_template_witness :
    (["a", "x", "y"] : List String).length = (LogCluster.mk ["a", "<T>", "c"] 5 7).tokens.length ∧
    ((LogCluster.mk ["a", "<T>", "c"] 5 7).update_template ["a", "x", "y"]
      (fun t => Drain.is_token "<T" t) (fun k => "m" ++ toString k) 3).2.2 = 4 := by
  refine ⟨by decide, ?_⟩
  have h := C3_update_template (LogCluster.mk ["a", "<T>", "c"] 5 7) ["a", "x", "y"]
    (fun t => Drain.is_token "<T" t) (fun k => "m" ++ toString k) 3 (by decide)
  rw [h.2.2.1]
  decide

/-- C5 counterexample: `update_template` called with a shorter observed
sequence (`["a"]` against template `["a", "b"]`) does not defensively return
the `None` update kind with the template unchanged — it truncates the
template to `["a"]` and returns `Updated`. -/
theorem C5_counterexample :
    ¬ ((((LogCluster.mk ["a", "b"] 1 1).update_template ["a"] (fun _ => false)
          (fun k => "<M" ++ toString k ++ ">") 0).2.1 = UpdateType.None) ∧
       (((LogCluster.mk ["a", "b"] 1 1).update_template ["a"] (fun _ => false)
          (fun k => "<M" ++ toString k ++ ">") 0).1.tokens = ["a", "b"])) := by
  decide

/-- C5 amended: `update_template` performs no length check; with an observed
sequence whose length differs from the template's it processes the zipped
common prefix (of length `min`), the resulting template is exactly that
zipped rebuild, `size` is still incremented, the update kind is `Updated`
iff the resulting sequence differs from the old one — in particular a
shorter observed sequence always truncates the template and returns
`Updated`. -/
theorem C5_update_template_mismatched (c : LogCluster) (tokens : List String)
    (isTok : String → Bool) (mint : Nat → String) (counter : Nat)
    (hne : tokens.length ≠ c.tokens.length) :
    let r := c.update_template tokens isTok mint counter
    let z := tokens.zip c.tokens
    r.1.cluster_id = c.cluster_id ∧
    r.1.size = c.size + 1 ∧
    r.1.tokens = (updTokens isTok mint z counter).1 ∧
    r.1.tokens.length = min tokens.length c.tokens.length ∧
    r.2.1 = (if r.1.tokens = c.tokens then UpdateType.None else UpdateType.Updated) ∧
    (tokens.length < c.tokens.length → r.2.1 = UpdateType.Updated) := by
  intro r z
  have hulen : (updTokens isTok mint z counter).1.length = min tokens.length c.tokens.length := by
    rw [updTokens_length isTok mint z counter]
    simp [z, List.length_zip]
  have hru : r = (if (updTokens isTok mint z counter).1 ≠ c.tokens then
      ({ c with tokens := (updTokens isTok mint z counter).1, size := c.size + 1 },
        UpdateType.Updated, (updTokens isTok mint z counter).2)
    else ({ c with size := c.size + 1 }, UpdateType.None,
        (updTokens isTok mint z counter).2)) := rfl
  by_cases hch : (updTokens isTok mint z counter).1 ≠ c.tokens
  · rw [hru, if_pos hch]
    refine ⟨rfl, rfl, rfl, hulen, by simp [hch], ?_⟩
    intro _
    rfl
  · rw [hru, if_neg hch]
    have heq : (updTokens isTok mint z counter).1 = c.tokens := not_not.mp hch
    refine ⟨rfl, rfl, heq.symm, ?_, by simp, ?_⟩
    · show c.tokens.length = min tokens.length c.tokens.length
      conv_lhs => rw [← heq]
      rw [hulen]
    · intro hlt
      exfalso
      have : c.tokens.length = min tokens.length c.tokens.length := by
        conv_lhs => rw [← heq]
        rw [hulen]
      omega

/-- Witness for the amended C5 statement: template `["a", "b"]`, observed
`["a"]` — the result is the truncated template `["a"]` with kind
`Updated`. -/
theorem C5_update_template_mismatched_witness :
    ((["a"] : List String).length ≠ (LogCluster.mk ["a", "b"] 1 1).tokens.length) ∧
    ((LogCluster.mk ["a", "b"] 1 1).update_template ["a"] (fun _ => false)
      (fun k => "<M" ++ toString k ++ ">") 0).2.1 = UpdateType.Updated := by
  refine ⟨by decide, ?_⟩
  have h := C5_update_template_mismatched (LogCluster.mk ["a", "b"] 1 1) ["a"]
    (fun _ => false) (fun k => "<M" ++ toString k ++ ">") 0 (by decide)
  exact h.2.2.2.2.2 (by decide)

end Drain3

namespace Drain3

/-! ### Step equations and invariants for ingest traces (claim C10) -/

/-- The default engine used by the concrete theorems: depth 4, similarity
threshold 0.4, max children 100, numeric parametrization on, affixes
`<`/`>`, mask name `TOKEN`. -/
def defaultDrain : Drain :=
  Drain.new 4 (mkRat 2 5) 100 none [] true "TOKEN" "<" ">"

/-- Ingest a whole list of lines, keeping the final engine state. -/
def Drain.ingestAll (d : Drain) (ls : List String) : Drain :=
  ls.foldl (fun acc s => (acc.add_log_message s).1) d

@[simp] theorem ingestAll_nil (d : Drain) : d.ingestAll [] = d := rfl

@[simp] theorem ingestAll_cons (d : Drain) (x : String) (ls : List String) :
    d.ingestAll (x :: ls) = ((d.add_log_message x).1).ingestAll ls := rfl

theorem update_template_cluster_id (c : LogCluster) (tokens : List String)
    (isTok : String → Bool) (mint : Nat → String) (counter : Nat) :
    (c.update_template tokens isTok mint counter).1.cluster_id = c.cluster_id := by
  simp only [LogCluster.update_template]
  split <;> rfl

theorem update_template_nil (c : LogCluster) (isTok : String → Bool)
    (mint : Nat → String) (counter : Nat) (hc : c.tokens = []) :
    c.update_template [] isTok mint counter =
      ({ c with size := c.size + 1 }, UpdateType.None, counter) := by
  simp only [LogCluster.update_template]
  rw [show updTokens isTok mint (List.zip [] c.tokens) counter = ([], counter) from rfl]
  rw [if_neg (by simp [hc])]

theorem tree_search_nil (root : List (Nat × Node)) (idToCluster : List (Nat × LogCluster))
    (simTh : ℚ) (ip : Bool) (depth : Nat) (tt : String) :
    Drain.tree_search root idToCluster [] simTh ip depth tt =
      match alistLookup root 0 with
      | none => none
      | some n => n.clusterIds.head? := by
  cases h : alistLookup root 0 <;> simp [Drain.tree_search, h]

theorem tree_search_some_elim (root : List (Nat × Node))
    (idToCluster : List (Nat × LogCluster)) (tokens : List String) (simTh : ℚ)
    (ip : Bool) (depth : Nat) (tt : String) (cid : Nat) (hne : tokens ≠ [])
    (h : Drain.tree_search root idToCluster tokens simTh ip depth tt = some cid) :
    ∃ leaf : Node, Drain.fast_match idToCluster leaf.clusterIds tokens simTh ip tt = some cid := by
  rcases hl : alistLookup root tokens.length with _ | n
  · rw [show Drain.tree_search root idToCluster tokens simTh ip depth tt = none from by
      unfold Drain.tree_search; rw [hl]] at h
    simp at h
  · have hstep : Drain.tree_search root idToCluster tokens simTh ip depth tt =
        (if tokens.length = 0 then n.clusterIds.head?
         else match treeDescend n tokens 1 (depth - 2) tokens.length with
              | none => none
              | some leaf => Drain.fast_match idToCluster leaf.clusterIds tokens simTh ip tt) := by
      unfold Drain.tree_search
      rw [hl]
    rw [hstep, if_neg (by simpa using hne)] at h
    rcases hd : treeDescend n tokens 1 (depth - 2) tokens.length with _ | leaf
    · rw [hd] at h
      simp at h
    · rw [hd] at h
      exact ⟨leaf, h⟩

theorem get_seq_distance_pos_len (seq1 seq2 : List String) (tt : String) (ip : Bool)
    (h : 0 < (Drain.get_seq_distance seq1 seq2 tt ip).1) :
    seq1.length = seq2.length := by
  by_contra hne
  rw [show Drain.get_seq_distance seq1 seq2 tt ip = (0, 0) from by
    unfold Drain.get_seq_distance; rw [if_pos hne]] at h
  exact absurd h (by norm_num)

/-- Whenever `fast_match` answers with a cluster id, in a state whose id
table is key-coherent the winning cluster is found at that key and its
similarity meets the threshold. -/
theorem fast_match_resolves (idToCluster : List (Nat × LogCluster)) (clusterIds : List Nat)
    (tokens : List String) (simTh : ℚ) (ip : Bool) (tt : String) (cid : Nat)
    (hcoh : ∀ k c, alistLookup idToCluster k = some c → c.cluster_id = k)
    (h : Drain.fast_match idToCluster clusterIds tokens simTh ip tt = some cid) :
    ∃ w, alistLookup idToCluster cid = some w ∧
      simTh ≤ (Drain.get_seq_distance w.tokens tokens tt ip).1 := by
  set score : LogCluster → ℚ × Int :=
    fun c => Drain.get_seq_distance c.tokens tokens tt ip with hscore
  set cs := clusterIds.filterMap (alistLookup idToCluster) with hcs
  have hunfold : Drain.fast_match idToCluster clusterIds tokens simTh ip tt =
      (if (cs.foldl (selStep score) (-1, -1, none)).1 ≥ simTh then
        (cs.foldl (selStep score) (-1, -1, none)).2.2.map (fun c => c.cluster_id)
       else none) := by
    unfold Drain.fast_match
    rw [foldl_fastMatchStep]
  rcases foldl_selStep_spec score cs (-1) (-1) none with ⟨-, heq⟩ | ⟨i₀, -, -, -, heq⟩
  · rw [hunfold, heq] at h
    split at h <;> simp at h
  · rw [hunfold, heq] at h
    split at h
    · rename_i hth
      simp only [Option.map] at h
      simp only [Option.some.injEq] at h
      refine ⟨cs.get i₀, ?_, ?_⟩
      · have hmem : cs.get i₀ ∈ clusterIds.filterMap (alistLookup idToCluster) :=
          List.get_mem _ _ _
        rcases List.mem_filterMap.mp hmem with ⟨id₀, -, hid₀⟩
        have hthis := hcoh id₀ (cs.get i₀) hid₀
        have hcidid : cid = id₀ := h.symm.trans hthis
        simp only [hcidid]
        exact hid₀
      · exact hth
    · simp at h

end Drain3

namespace Drain3

theorem add_log_message_eq_created (d : Drain) (content : String)
    (hsearch : Drain.tree_search d.root_node d.id_to_cluster
      (d.get_content_as_tokens content) d.sim_th true d.log_cluster_depth
      d.token_template = none) :
    d.add_log_message content =
      ({ d with
          clusters_counter := d.clusters_counter + 1
          id_to_cluster := alistUpdate d.id_to_cluster (d.clusters_counter + 1)
            (LogCluster.new (d.get_content_as_tokens content) (d.clusters_counter + 1))
          root_node := Drain.add_seq_to_prefix_tree d.root_node
            (LogCluster.new (d.get_content_as_tokens content) (d.clusters_counter + 1))
            d.log_cluster_depth d.max_children d.parametrize_numeric_tokens },
       LogCluster.new (d.get_content_as_tokens content) (d.clusters_counter + 1),
       UpdateType.Created) := by
  simp only [Drain.add_log_message]
  rw [hsearch]

theorem add_log_message_eq_matched (d : Drain) (content : String) (cid : Nat)
    (c : LogCluster)
    (hsearch : Drain.tree_search d.root_node d.id_to_cluster
      (d.get_content_as_tokens content) d.sim_th true d.log_cluster_depth
      d.token_template = some cid)
    (hlook : alistLookup d.id_to_cluster cid = some c) :
    d.add_log_message content =
      (let r := c.update_template (d.get_content_as_tokens content)
          (fun t => Drain.is_token d.token_template_check t)
          (fun k => d.tokenPrefixStr ++ d.token_template ++ toString k ++ d.tokenSuffixStr)
          d.token_template_counter
       ({ d with
            id_to_cluster := alistUpdate d.id_to_cluster cid r.1
            token_template_counter := r.2.2 }, r.1, r.2.1)) := by
  simp only [Drain.add_log_message]
  rw [hsearch]
  show (match alistLookup d.id_to_cluster cid with
        | some cluster =>
            let r := cluster.update_template (d.get_content_as_tokens content)
              (fun t => Drain.is_token d.token_template_check t)
              (fun k => d.tokenPrefixStr ++ d.token_template ++ toString k ++ d.tokenSuffixStr)
              d.token_template_counter
            ({ d with
                id_to_cluster := alistUpdate d.id_to_cluster cid r.1
                token_template_counter := r.2.2 }, r.1, r.2.1)
        | none => (d, LogCluster.new [] 0, UpdateType.None)) = _
  rw [hlook]

theorem add_seq_lookup_ne_zero (root : List (Nat × Node)) (cluster : LogCluster)
    (depth mc : Nat) (pn : Bool) (h : cluster.tokens.length ≠ 0) :
    alistLookup (Drain.add_seq_to_prefix_tree root cluster depth mc pn) 0
      = alistLookup root 0 := by
  unfold Drain.add_seq_to_prefix_tree
  rw [if_neg h]
  exact alistLookup_update_ne _ _ _ _ h

theorem add_seq_nil_lookup (root : List (Nat × Node)) (cluster : LogCluster)
    (depth mc : Nat) (pn : Bool) (hc : cluster.tokens = [])
    (hroot : alistLookup root 0 = none) :
    alistLookup (Drain.add_seq_to_prefix_tree root cluster depth mc pn) 0
      = some (Node.mk [] none [cluster.cluster_id]) := by
  simp only [Drain.add_seq_to_prefix_tree]
  rw [hc]
  simp only [List.length_nil]
  rw [if_pos trivial, hroot, alistLookup_update_self]
  rfl

/-- Tokenization does not depend on the similarity threshold or on any
other field than the extra delimiters. -/
theorem get_content_as_tokens_no_delims (d : Drain) (h : d.extra_delimiters = [])
    (x : String) :
    d.get_content_as_tokens x = splitWhitespaceAux (trimChars x.toList) [] := by
  unfold Drain.get_content_as_tokens
  rw [h]
  rfl

/-- Configuration and bookkeeping invariant carried along every ingest
trace: no extra delimiters, a positive similarity threshold, and key
coherence of the cluster table (the entry at key `k` is the cluster whose
id is `k`). -/
def Inv0 (d : Drain) : Prop :=
  d.extra_delimiters = [] ∧ 0 < d.sim_th ∧
  ∀ k c, alistLookup d.id_to_cluster k = some c → c.cluster_id = k

/-- The state of the length-0 partition after `nE > 0` whitespace-only
lines: the partition node exists and holds exactly the one cluster id `i`,
whose cluster has the empty template and size `nE`. -/
def EmptyInv (d : Drain) (nE i : Nat) : Prop :=
  ∃ n : Node, alistLookup d.root_node 0 = some n ∧ n.clusterIds = [i] ∧
    ∃ c : LogCluster, alistLookup d.id_to_cluster i = some c ∧
      c.tokens = [] ∧ c.cluster_id = i ∧ c.size = nE ∧ i ≤ d.clusters_counter

end Drain3

namespace Drain3

/-- Ingesting a line with at least one token preserves the bookkeeping
invariant, leaves the length-0 partition untouched, never decreases the
cluster counter, and never touches an empty-template cluster entry. -/
theorem nonempty_step (d : Drain) (x : String) (h0 : Inv0 d)
    (hx : d.get_content_as_tokens x ≠ []) :
    Inv0 (d.add_log_message x).1 ∧
    alistLookup (d.add_log_message x).1.root_node 0 = alistLookup d.root_node 0 ∧
    d.clusters_counter ≤ (d.add_log_message x).1.clusters_counter ∧
    (∀ i c, i ≤ d.clusters_counter → c.tokens = [] →
      alistLookup d.id_to_cluster i = some c →
      alistLookup (d.add_log_message x).1.id_to_cluster i = some c) := by
  obtain ⟨hdel, hsim, hcoh⟩ := h0
  rcases hs : Drain.tree_search d.root_node d.id_to_cluster (d.get_content_as_tokens x)
      d.sim_th true d.log_cluster_depth d.token_template with _ | cid
  · -- no match: a new cluster is created and inserted
    rw [add_log_message_eq_created d x hs]
    dsimp only
    have hlen0 : (LogCluster.new (d.get_content_as_tokens x)
        (d.clusters_counter + 1)).tokens.length ≠ 0 := by
      simpa [LogCluster.new] using hx
    refine ⟨⟨hdel, hsim, ?_⟩, ?_, ?_, ?_⟩
    · intro k c hk
      by_cases hkc : d.clusters_counter + 1 = k
      · subst hkc
        rw [alistLookup_update_self] at hk
        cases hk
        rfl
      · rw [alistLookup_update_ne _ _ _ _ hkc] at hk
        exact hcoh k c hk
    · exact add_seq_lookup_ne_zero _ _ _ _ _ hlen0
    · exact Nat.le_succ _
    · intro i c hi hct hlook
      have hne : d.clusters_counter + 1 ≠ i := by omega
      rw [alistLookup_update_ne _ _ _ _ hne]
      exact hlook
  · -- matched: the winning cluster is updated in place
    obtain ⟨leaf, hfm⟩ := tree_search_some_elim _ _ _ _ _ _ _ _ hx hs
    obtain ⟨w, hlook, hsimge⟩ := fast_match_resolves _ _ _ _ _ _ _ hcoh hfm
    have hwlen : w.tokens.length = (d.get_content_as_tokens x).length :=
      get_seq_distance_pos_len _ _ _ _ (lt_of_lt_of_le hsim hsimge)
    rw [add_log_message_eq_matched d x cid w hs hlook]
    dsimp only
    refine ⟨⟨hdel, hsim, ?_⟩, rfl, le_refl _, ?_⟩
    · intro k c hk
      by_cases hkc : cid = k
      · subst hkc
        rw [alistLookup_update_self] at hk
        cases hk
        rw [update_template_cluster_id]
        exact hcoh cid w hlook
      · rw [alistLookup_update_ne _ _ _ _ hkc] at hk
        exact hcoh k c hk
    · intro i c hi hct hlooki
      have hcidne : cid ≠ i := by
        intro hEq
        subst hEq
        rw [hlook] at hlooki
        cases hlooki
        rw [hct] at hwlen
        have : (d.get_content_as_tokens x).length ≠ 0 := by
          simpa using hx
        simp at hwlen
        exact this hwlen.symm
      rw [alistLookup_update_ne _ _ _ _ hcidne]
      exact hlooki

/-- The first whitespace-only line: no length-0 partition exists yet, so a
fresh cluster with the empty template is created and attached there. -/
theorem empty_step_created (d : Drain) (w : String)
    (hw : d.get_content_as_tokens w = [])
    (hroot : alistLookup d.root_node 0 = none) :
    d.add_log_message w =
      ({ d with
          clusters_counter := d.clusters_counter + 1
          id_to_cluster := alistUpdate d.id_to_cluster (d.clusters_counter + 1)
            (LogCluster.new [] (d.clusters_counter + 1))
          root_node := Drain.add_seq_to_prefix_tree d.root_node
            (LogCluster.new [] (d.clusters_counter + 1)) d.log_cluster_depth
            d.max_children d.parametrize_numeric_tokens },
       LogCluster.new [] (d.clusters_counter + 1), UpdateType.Created) := by
  have hsearch : Drain.tree_search d.root_node d.id_to_cluster
      (d.get_content_as_tokens w) d.sim_th true d.log_cluster_depth
      d.token_template = none := by
    rw [hw, tree_search_nil, hroot]
  have h := add_log_message_eq_created d w hsearch
  rw [h, hw]

/-- A later whitespace-only line: the length-0 partition holds the single
cluster `i`, which is returned with its size incremented and update kind
`None`; the tree and counters are untouched. -/
theorem empty_step_matched (d : Drain) (w : String)
    (hw : d.get_content_as_tokens w = []) (nE i : Nat) (hInv : EmptyInv d nE i) :
    d.add_log_message w =
      ({ d with
          id_to_cluster := alistUpdate d.id_to_cluster i
            ({ tokens := [], cluster_id := i, size := nE + 1 }) },
       { tokens := [], cluster_id := i, size := nE + 1 }, UpdateType.None) := by
  obtain ⟨n, hn, hids, c, hc, hct, hcid, hcsz, hile⟩ := hInv
  have hsearch : Drain.tree_search d.root_node d.id_to_cluster
      (d.get_content_as_tokens w) d.sim_th true d.log_cluster_depth
      d.token_template = some i := by
    rw [hw, tree_search_nil, hn]
    show n.clusterIds.head? = some i
    rw [hids]
    rfl
  have h := add_log_message_eq_matched d w i c hsearch hc
  rw [h, hw]
  obtain ⟨ctk, ccid, csz⟩ := c
  simp only at hct hcid hcsz
  subst hct
  subst hcid
  subst hcsz
  rw [update_template_nil _ _ _ _ rfl]

end Drain3

namespace Drain3

theorem tokens_eq_default (d : Drain) (h : d.extra_delimiters = []) (x : String) :
    d.get_content_as_tokens x = defaultDrain.get_content_as_tokens x := by
  rw [get_content_as_tokens_no_delims d h x,
    get_content_as_tokens_no_delims defaultDrain rfl x]

theorem empty_created_preserves (d : Drain) (w : String) (h0 : Inv0 d)
    (hw : d.get_content_as_tokens w = [])
    (hroot : alistLookup d.root_node 0 = none) :
    Inv0 (d.add_log_message w).1 ∧
    EmptyInv (d.add_log_message w).1 1 (d.clusters_counter + 1) := by
  obtain ⟨hdel, hsim, hcoh⟩ := h0
  rw [empty_step_created d w hw hroot]
  dsimp only
  refine ⟨⟨hdel, hsim, ?_⟩, ?_⟩
  · intro k c hk
    by_cases hkc : d.clusters_counter + 1 = k
    · subst hkc
      rw [alistLookup_update_self] at hk
      cases hk
      rfl
    · rw [alistLookup_update_ne _ _ _ _ hkc] at hk
      exact hcoh k c hk
  · refine ⟨Node.mk [] none [d.clusters_counter + 1], ?_, rfl,
      LogCluster.new [] (d.clusters_counter + 1), ?_, rfl, rfl, rfl, Nat.le_refl _⟩
    · exact add_seq_nil_lookup d.root_node (LogCluster.new [] (d.clusters_counter + 1))
        d.log_cluster_depth d.max_children d.parametrize_numeric_tokens rfl hroot
    · exact alistLookup_update_self _ _ _

theorem empty_matched_preserves (d : Drain) (w : String) (nE i : Nat) (h0 : Inv0 d)
    (hw : d.get_content_as_tokens w = []) (hInv : EmptyInv d nE i) :
    Inv0 (d.add_log_message w).1 ∧ EmptyInv (d.add_log_message w).1 (nE + 1) i := by
  obtain ⟨hdel, hsim, hcoh⟩ := h0
  obtain ⟨n, hn, hids, c, hc, hct, hcid, hcsz, hile⟩ := hInv
  rw [empty_step_matched d w hw nE i ⟨n, hn, hids, c, hc, hct, hcid, hcsz, hile⟩]
  dsimp only
  refine ⟨⟨hdel, hsim, ?_⟩, ?_⟩
  · intro k c' hk
    by_cases hkc : i = k
    · subst hkc
      rw [alistLookup_update_self] at hk
      cases hk
      rfl
    · rw [alistLookup_update_ne _ _ _ _ hkc] at hk
      exact hcoh k c' hk
  · exact ⟨n, hn, hids, { tokens := [], cluster_id := i, size := nE + 1 },
      alistLookup_update_self _ _ _, rfl, rfl, rfl, hile⟩

theorem nonempty_preserves_EmptyInv (d : Drain) (x : String) (nE i : Nat)
    (h0 : Inv0 d) (hx : d.get_content_as_tokens x ≠ []) (hInv : EmptyInv d nE i) :
    EmptyInv (d.add_log_message x).1 nE i := by
  obtain ⟨-, hroot, hctr, hkeep⟩ := nonempty_step d x h0 hx
  obtain ⟨n, hn, hids, c, hc, hct, hcid, hcsz, hile⟩ := hInv
  exact ⟨n, by rw [hroot]; exact hn, hids, c, hkeep i c hile hct hc, hct, hcid, hcsz,
    le_trans hile hctr⟩

/-- The invariant carried over a whole ingest trace: `nE` counts the
whitespace-only lines ingested so far; either none was seen and no length-0
partition exists, or the partition holds the single empty-template cluster
of size `nE`. -/
def TraceInv (d : Drain) (nE : Nat) : Prop :=
  Inv0 d ∧ ((nE = 0 ∧ alistLookup d.root_node 0 = none) ∨
    (0 < nE ∧ ∃ i, EmptyInv d nE i))

theorem step_TraceInv (d : Drain) (x : String) (nE : Nat) (h : TraceInv d nE) :
    TraceInv (d.add_log_message x).1
      (nE + if defaultDrain.get_content_as_tokens x = [] then 1 else 0) := by
  obtain ⟨h0, hcase⟩ := h
  have htok : d.get_content_as_tokens x = defaultDrain.get_content_as_tokens x :=
    tokens_eq_default d h0.1 x
  by_cases hx : defaultDrain.get_content_as_tokens x = []
  · rw [if_pos hx]
    have hwd : d.get_content_as_tokens x = [] := by rw [htok]; exact hx
    rcases hcase with ⟨h0e, hroot⟩ | ⟨hpos, i, hInv⟩
    · obtain ⟨hinv0, hemp⟩ := empty_created_preserves d x h0 hwd hroot
      subst h0e
      exact ⟨hinv0, Or.inr ⟨Nat.one_pos, d.clusters_counter + 1, hemp⟩⟩
    · obtain ⟨hinv0, hemp⟩ := empty_matched_preserves d x nE i h0 hwd hInv
      exact ⟨hinv0, Or.inr ⟨Nat.succ_pos _, i, hemp⟩⟩
  · rw [if_neg hx]
    have hwd : d.get_content_as_tokens x ≠ [] := by rw [htok]; exact hx
    obtain ⟨hinv0, hroot, -, -⟩ := nonempty_step d x h0 hwd
    rcases hcase with ⟨h0e, hroot0⟩ | ⟨hpos, i, hInv⟩
    · exact ⟨hinv0, Or.inl ⟨h0e, by rw [hroot]; exact hroot0⟩⟩
    · exact ⟨hinv0, Or.inr ⟨hpos, i, nonempty_preserves_EmptyInv d x nE i h0 hwd hInv⟩⟩

theorem ingestAll_TraceInv : ∀ (ls : List String) (d : Drain) (nE : Nat),
    TraceInv d nE →
    TraceInv (d.ingestAll ls)
      (nE + ls.countP (fun s => decide (defaultDrain.get_content_as_tokens s = []))) := by
  intro ls
  induction ls with
  | nil => intro d nE h; simpa using h
  | cons x rest ih =>
      intro d nE h
      rw [ingestAll_cons]
      have harith : nE + List.countP
          (fun s => decide (defaultDrain.get_content_as_tokens s = [])) (x :: rest)
          = (nE + if defaultDrain.get_content_as_tokens x = [] then 1 else 0)
            + List.countP (fun s => decide (defaultDrain.get_content_as_tokens s = [])) rest := by
        rw [List.countP_cons]
        by_cases hx : defaultDrain.get_content_as_tokens x = [] <;> simp [hx] <;> omega
      rw [harith]
      exact ih _ _ (step_TraceInv d x nE h)

/-- Once the length-0 partition holds the single empty-template cluster
`i`, it does so after any further ingest sequence. -/
theorem ingestAll_persist (i : Nat) : ∀ (ls : List String) (d : Drain) (nE : Nat),
    Inv0 d → EmptyInv d nE i →
    Inv0 (d.ingestAll ls) ∧ ∃ nE', EmptyInv (d.ingestAll ls) nE' i := by
  intro ls
  induction ls with
  | nil => intro d nE h0 h; exact ⟨h0, nE, h⟩
  | cons x rest ih =>
      intro d nE h0 h
      rw [ingestAll_cons]
      have htok : d.get_content_as_tokens x = defaultDrain.get_content_as_tokens x :=
        tokens_eq_default d h0.1 x
      by_cases hx : d.get_content_as_tokens x = []
      · obtain ⟨hinv0, hemp⟩ := empty_matched_preserves d x nE i h0 hx h
        exact ih _ _ hinv0 hemp
      · have hinv0 := (nonempty_step d x h0 hx).1
        exact ih _ _ hinv0 (nonempty_preserves_EmptyInv d x nE i h0 hx h)

end Drain3

namespace Drain3

/-- C10: from a fresh default engine, all lines that tokenize to zero tokens
(whitespace-only input) map to one single cluster.  After any prior ingest
sequence `ls`, ingesting a whitespace-only line `w` returns a cluster with
the empty template; if `ls` contained no whitespace-only line the call
creates the cluster (kind `Created`, size 1, fresh id) and stores it at the
length-0 partition node; otherwise the call returns the first (and only)
cluster stored at the length-0 partition node with kind `None` and size
incremented to the count of whitespace-only lines so far plus one, that
partition keeps exactly that cluster id under every further ingest
sequence, and no similarity-threshold comparison is applied: the call's
outcome is unchanged under an arbitrary replacement of `sim_th`. -/
theorem C10_empty_lines (ls : List String) (w : String)
    (hw : defaultDrain.get_content_as_tokens w = []) :
    let d := defaultDrain.ingestAll ls
    let r := d.add_log_message w
    let nE := ls.countP (fun s => decide (defaultDrain.get_content_as_tokens s = []))
    r.2.1.tokens = [] ∧
    (nE = 0 →
      r.2.2 = UpdateType.Created ∧ r.2.1.size = 1 ∧
      r.2.1.cluster_id = d.clusters_counter + 1 ∧
      (alistLookup r.1.root_node 0).map Node.clusterIds = some [r.2.1.cluster_id]) ∧
    (0 < nE →
      r.2.2 = UpdateType.None ∧ r.2.1.size = nE + 1 ∧
      (alistLookup d.root_node 0).map Node.clusterIds = some [r.2.1.cluster_id] ∧
      (∀ more : List String,
        (alistLookup (r.1.ingestAll more).root_node 0).map Node.clusterIds
          = some [r.2.1.cluster_id])) ∧
    (∀ t : ℚ, (({ d with sim_th := t }).add_log_message w).2 = r.2) := by
  intro d r nE
  have hbase : TraceInv defaultDrain 0 := by
    refine ⟨⟨rfl, by decide, ?_⟩, Or.inl ⟨rfl, rfl⟩⟩
    intro k c hk
    simp [defaultDrain, Drain.new] at hk
  have htr : TraceInv d nE := by
    have h := ingestAll_TraceInv ls defaultDrain 0 hbase
    simpa using h
  obtain ⟨h0, hcase⟩ := htr
  have hwd : d.get_content_as_tokens w = [] := by
    rw [tokens_eq_default d h0.1 w]
    exact hw
  have hr : r = d.add_log_message w := rfl
  rcases hcase with ⟨h0e, hroot⟩ | ⟨hpos, i, hInv⟩
  · -- no whitespace-only line was seen before
    have heq := empty_step_created d w hwd hroot
    refine ⟨?_, ?_, ?_, ?_⟩
    · rw [hr, heq]
      rfl
    · intro _
      refine ⟨?_, ?_, ?_, ?_⟩
      · rw [hr, heq]
      · rw [hr, heq]
        rfl
      · rw [hr, heq]
        rfl
      · rw [hr, heq]
        dsimp only
        rw [add_seq_nil_lookup d.root_node (LogCluster.new [] (d.clusters_counter + 1))
          d.log_cluster_depth d.max_children d.parametrize_numeric_tokens rfl hroot]
        rfl
    · intro hposE
      rw [h0e] at hposE
      exact absurd hposE (by omega)
    · intro t
      have heqt := empty_step_created { d with sim_th := t } w hwd hroot
      rw [hr, heq, heqt]
  · -- the length-0 partition already holds cluster i
    have heq := empty_step_matched d w hwd nE i hInv
    obtain ⟨hinv0', hemp'⟩ := empty_matched_preserves d w nE i h0 hwd hInv
    obtain ⟨n, hn, hids, c, hc, hct, hcid, hcsz, hile⟩ := hInv
    refine ⟨?_, ?_, ?_, ?_⟩
    · rw [hr, heq]
    · intro h0e
      rw [h0e] at hpos
      exact absurd hpos (by omega)
    · intro _
      refine ⟨?_, ?_, ?_, ?_⟩
      · rw [hr, heq]
      · rw [hr, heq]
      · rw [hr, heq, hn]
        show some n.clusterIds = some [i]
        rw [hids]
      · intro more
        obtain ⟨-, nE', hE'⟩ := ingestAll_persist i more
          (d.add_log_message w).1 (nE + 1) hinv0' hemp'
        obtain ⟨n', hn', hids', -, -, -, -, -, -⟩ := hE'
        rw [hr, hn', heq]
        show some n'.clusterIds = some [i]
        rw [hids']
    · intro t
      have hInvt : EmptyInv { d with sim_th := t } nE i :=
        ⟨n, hn, hids, c, hc, hct, hcid, hcsz, hile⟩
      have heqt := empty_step_matched { d with sim_th := t } w hwd nE i hInvt
      rw [hr, heq, heqt]

/-- Witness for C10: after ingesting `"a b"` and the whitespace-only line
`" "`, ingesting `""` returns the same empty-template cluster with kind
`None` and size 2. -/
theorem C10_empty_lines_witness :
    defaultDrain.get_content_as_tokens "" = [] ∧
    ((defaultDrain.ingestAll ["a b", " "]).add_log_message "").2.2 = UpdateType.None ∧
    ((defaultDrain.ingestAll ["a b", " "]).add_log_message "").2.1.size = 2 := by
  have h := C10_empty_lines ["a b", " "] "" (by decide)
  refine ⟨by decide, (h.2.2.1 (by decide)).1, ?_⟩
  have hsz := (h.2.2.1 (by decide)).2.1
  rw [show (["a b", " "] : List String).countP
      (fun s => decide (defaultDrain.get_content_as_tokens s = [])) = 1 from by decide] at hsz
  exact hsz

end Drain3

namespace Drain3

/-- C2 (code bug): the placeholder predicate used when scoring similarity
inside `add_log_message` is `starts_with("TOKEN")` — `tree_search` is passed
`token_template`, not `token_template_check` — so it does not hold iff the
token starts with `"<TOKEN"`: the literal token `"TOKENa"` is classified as
a placeholder although it does not start with the prefixed form.
Consequently, with threshold 3/4, the line `"b c"` is merged into the
cluster of `"b TOKENa"` (similarity 1 under the code's predicate) although
under the claimed predicate its similarity is only 1/2 < 3/4. -/
theorem C2_scoring_predicate_bug :
    Drain.is_token "TOKEN" "TOKENa" = true ∧
    Drain.is_token ("<" ++ "TOKEN") "TOKENa" = false ∧
    (Drain.get_seq_distance ["b", "TOKENa"] ["b", "c"] "TOKEN" true).1 = 1 ∧
    (Drain.get_seq_distance ["b", "TOKENa"] ["b", "c"] ("<" ++ "TOKEN") true).1
      < mkRat 3 4 ∧
    (((Drain.new 4 (mkRat 3 4) 100 none [] true "TOKEN" "<" ">").add_log_message
        "b TOKENa").1.add_log_message "b c").2.1.cluster_id = 1 ∧
    (((Drain.new 4 (mkRat 3 4) 100 none [] true "TOKEN" "<" ">").add_log_message
        "b TOKENa").1.add_log_message "b c").2.2 = UpdateType.Updated := by
  refine ⟨by decide, by decide, by decide, by decide, by decide, by decide⟩

/-- C6 (code bug): `Node::child_count` returns `1 + children.len()` whether
or not a wildcard child exists, so at a node with one literal child, no
wildcard, and `max_children = 3`, inserting a non-numeric token takes the
`child_count() + 1 == max_children` branch: the wildcard child is created
and descended into although `n + 1 = 2 < 3` — the claim's literal child is
never created. -/
theorem C6_max_children_boundary_bug :
    CNode.child_count
      (CNode.mk [("a", CNode.mk [] none [LogCluster.new ["a", "x"] 1])] none []) = 2 ∧
    ((CNode.mk [("a", CNode.mk [] none [LogCluster.new ["a", "x"] 1])] none
      []).add_cluster 2 ["b", "y"] 4 3 true).1.has_child "b" = false ∧
    ((CNode.mk [("a", CNode.mk [] none [LogCluster.new ["a", "x"] 1])] none
      []).add_cluster 2 ["b", "y"] 4 3 true).1.has_wildcard = true ∧
    ((CNode.mk [("a", CNode.mk [] none [LogCluster.new ["a", "x"] 1])] none
      []).add_cluster 2 ["b", "y"] 4 3 true).1.children.length = 1 := by
  refine ⟨by decide, by decide, by decide, by decide⟩

/-- C7 (code bug): a snapshot triggered inside `add_log_message` updates
`last_save_time` on success but never resets `state_dirty` — the flag stays
`true` after a successful save; a failed save leaves both the flag and
`last_save_time` unchanged and the ingest still returns its result. -/
theorem C7_state_dirty_not_reset :
    ((TemplateMiner.mk defaultDrain [] true 0 false 1).add_log_message 100 true
      "a").2.2 = UpdateType.Created ∧
    ((TemplateMiner.mk defaultDrain [] true 0 false 1).add_log_message 100 true
      "a").1.last_save_time = 100 ∧
    ((TemplateMiner.mk defaultDrain [] true 0 false 1).add_log_message 100 true
      "a").1.state_dirty = true ∧
    ((TemplateMiner.mk defaultDrain [] true 0 false 1).add_log_message 100 false
      "a").1.state_dirty = true ∧
    ((TemplateMiner.mk defaultDrain [] true 0 false 1).add_log_message 100 false
      "a").1.last_save_time = 0 ∧
    ((TemplateMiner.mk defaultDrain [] true 0 false 1).add_log_message 100 false
      "a").2.2 = UpdateType.Created := by
  refine ⟨by decide, by decide, by decide, by decide, by decide, by decide⟩

/-- C1 (code bug): `TemplateMiner::load_state` never deserializes the saved
payload (the restore is commented out), so a save/load round-trip does not
reproduce the miner: a fresh miner that "loaded" the state of a miner that
ingested `"a b"` re-creates the cluster (`Created`, size 1) on the next
ingest of `"a b"`, while the original miner continuing returns `None` with
size 2. -/
theorem C1_load_state_stub :
    (TemplateMiner.mk defaultDrain [] false 0 false 1).load_state
        (some ((TemplateMiner.mk defaultDrain [] false 0 false 1).add_log_message
          0 true "a b").1.save_payload)
      = TemplateMiner.mk defaultDrain [] false 0 false 1 ∧
    (((TemplateMiner.mk defaultDrain [] false 0 false 1).add_log_message 0 true
      "a b").1.add_log_message 0 true "a b").2.2 = UpdateType.None ∧
    (((TemplateMiner.mk defaultDrain [] false 0 false 1).add_log_message 0 true
      "a b").1.add_log_message 0 true "a b").2.1.size = 2 ∧
    (((TemplateMiner.mk defaultDrain [] false 0 false 1).load_state
        (some ((TemplateMiner.mk defaultDrain [] false 0 false 1).add_log_message
          0 true "a b").1.save_payload)).add_log_message 0 true "a b").2.2
      = UpdateType.Created ∧
    (((TemplateMiner.mk defaultDrain [] false 0 false 1).load_state
        (some ((TemplateMiner.mk defaultDrain [] false 0 false 1).add_log_message
          0 true "a b").1.save_payload)).add_log_message 0 true "a b").2.1.size = 1 := by
  refine ⟨rfl, by decide, by decide, by decide, by decide⟩

/-- C9 (code bug): `regex::escape` does not escape spaces, so the escaped
template contains no `\ ` pair and the space substitution never fires — the
extraction regex for `"Connected to <*>"` keeps plain single spaces and
contains no `\s+`; moreover, even where a backslash-space pair does occur,
the `regex` crate copies the replacement `r"\\s+"` verbatim, producing the
four characters `\\s+` (a literal backslash followed by `s+`), not the
whitespace pattern `\s+`. -/
theorem C9_space_substitution_bug :
    get_template_parameter_extraction_regex "<" ">" "Connected to <*>"
      = "^Connected to (?P<p_0>.+?)$" ∧
    escapeRegexChars " ".toList = [' '] ∧
    substEscapedSpaces ['\\', ' '] = ['\\', '\\', 's', '+'] := by
  refine ⟨by decide, by decide, by decide⟩

/-- C8 (code bug): immediately after `ingest("a x"); ingest("a y")` returned
cluster 1 (template `["a", "<TOKEN1>"]`, kind `Updated`),
`match_cluster("a y", Fast)` returns nothing: the `Fast` tree search scores
with `token_template` (`"TOKEN"`), under which `"<TOKEN1>"` is not a
placeholder, so the required similarity 1.0 is missed — while the `Full`
and `Fallback` strategies (which score with `token_template_check`) do
return cluster 1. -/
theorem C8_match_after_ingest_fast_bug :
    (((defaultDrain.add_log_message "a x").1.add_log_message "a y").2.1.cluster_id = 1 ∧
     ((defaultDrain.add_log_message "a x").1.add_log_message "a y").2.2
        = UpdateType.Updated) ∧
    (((defaultDrain.add_log_message "a x").1.add_log_message "a y").1.match_cluster
      "a y" SearchStrategy.Fast = none) ∧
    ((((defaultDrain.add_log_message "a x").1.add_log_message "a y").1.match_cluster
      "a y" SearchStrategy.Full).map (fun c => c.cluster_id) = some 1) ∧
    ((((defaultDrain.add_log_message "a x").1.add_log_message "a y").1.match_cluster
      "a y" SearchStrategy.Fallback).map (fun c => c.cluster_id) = some 1) := by
  have hids : ((defaultDrain.add_log_message "a x").1.add_log_message
      "a y").1.get_clusters_ids_for_seq_len 2 = [1] := by
    rw [Drain.get_clusters_ids_for_seq_len,
      show ((defaultDrain.add_log_message "a x").1.add_log_message "a y").1.root_node
        = [(2, Node.mk [("a", Node.mk [] none [1])] none [])] from rfl]
    simp
  refine ⟨⟨by decide, by decide⟩, by decide, ?_, ?_⟩
  · simp only [Drain.match_cluster]
    rw [show ((defaultDrain.add_log_message "a x").1.add_log_message
        "a y").1.get_content_as_tokens "a y" = ["a", "y"] from rfl]
    rw [show (["a", "y"] : List String).length = 2 from rfl, hids]
    decide
  · simp only [Drain.match_cluster]
    rw [show ((defaultDrain.add_log_message "a x").1.add_log_message
        "a y").1.get_content_as_tokens "a y" = ["a", "y"] from rfl]
    rw [show (["a", "y"] : List String).length = 2 from rfl, hids]
    decide

end Drain3
